import Mathlib

set_option autoImplicit false

/-!
Verification of the adns authoritative DNS server.

This file gives a shallow embedding of the parts of the adns sources that the
verified properties speak about:

* `adns-proto/src/name.rs` — domain names, `ends_with`, `contains`;
* `adns-proto/src/header.rs` — the 12-byte DNS header codec;
* `adns-proto/src/context.rs` — `DeserializeContext::read_name`;
* `adns-proto/src/tsig.rs` — TSIG MAC calculation / validation / error records;
* `adns-zone/src/updates.rs` — `ZoneUpdateAction::apply_to`;
* `adns-server/src/server/respond.rs` and `respond_update.rs` — the packet
  dispatch, AXFR gating and the RFC 2136 update pipeline.

Machine integers are modelled as `Nat` (with explicit masks where the source
masks), byte strings as `List Nat`, Rust `String` as `List Char`.  A `Name` is
modelled by its list of labels together with the well-formedness invariant the
source maintains (`push_segment` skips empty labels; the dotted `full` string
and the label index agree, so labels contain no dot).  Cryptographic HMAC
computation and the wall clock are passed in as explicit parameters.
-/

namespace Adns

/-- Rust `u8::to_ascii_lowercase`: lower-cases ASCII `A`–`Z`, leaves everything
else unchanged. -/
def lowerC (c : Char) : Char :=
  if 65 ≤ c.toNat ∧ c.toNat ≤ 90 then Char.ofNat (c.toNat + 32) else c

/-- Rust `str::eq_ignore_ascii_case`. -/
def eqIC (a b : List Char) : Bool :=
  decide (a.map lowerC = b.map lowerC)

/-- One label of a domain name. -/
abbrev Label := List Char

/-- A domain name as its list of labels (`Name::segments`). -/
abbrev DName := List Label

/-- The dotted `full` string maintained by `Name::push_segment`: labels joined
by single dots (the first label is written bare, each further label is written
as `"." ++ label`). -/
def joinDots : DName → List Char
  | [] => []
  | [l] => l
  | l :: ls => l ++ '.' :: joinDots ls

/-- `PartialEq for Name`: ASCII-case-insensitive comparison of the `full`
strings. -/
def beqName (a b : DName) : Bool :=
  eqIC (joinDots a) (joinDots b)

/-- Well-formed label, as guaranteed for every `Name` built through the source
API: `push_segment` drops empty labels, and invariant (a) of the spec (the
label-offset index and the dotted form agree) requires labels to be dot-free. -/
def WfLabel (l : Label) : Prop := l ≠ [] ∧ '.' ∉ l

/-- Well-formed name: every label is well-formed. -/
def WfName (n : DName) : Prop := ∀ l ∈ n, WfLabel l

/-- The record-type tags inspected by the modelled operations
(`adns-proto/src/types/mod.rs`).  All remaining IANA type codes are carried by
`Other`, exactly as unknown codes are in the source; no modelled operation
distinguishes between them. -/
inductive TypeT where
  | A | NS | CNAME | SOA | MX | TXT | TSIG
  | IXFR | AXFR | MAILB | MAILA | ALL
  | Other (code : Nat)
deriving DecidableEq, Repr

/-- `Type::is_question_type`: `IXFR <= t && t <= ALL` under the derived
discriminant order.  The five variants `IXFR`, `AXFR`, `MAILB`, `MAILA`, `ALL`
have discriminants 251–255; every other named variant and the payload variant
`Other` (declared last, hence with the largest discriminant) fall outside the
range. -/
def TypeT.isQuestionType : TypeT → Bool
  | .IXFR | .AXFR | .MAILB | .MAILA | .ALL => true
  | _ => false

/-- DNS class (`adns-proto/src/record.rs`). -/
inductive ClassT where
  | IN | NONE | ALL
  | Other (code : Nat)
deriving DecidableEq, Repr

/-- `SoaData`. -/
structure SoaDataT where
  mname : DName
  rname : DName
  serial : Nat
  refresh : Nat
  retry : Nat
  expire : Nat
  minimum : Nat
deriving DecidableEq, Repr

/-- TSIG response codes (`TsigResponseCode`). -/
inductive TsigRC where
  | NoError | BadSig | BadKey | BadTime
  | Other (code : Nat)
deriving DecidableEq, Repr

/-- `From<TsigResponseCode> for u16`. -/
def TsigRC.toNat : TsigRC → Nat
  | .NoError => 0
  | .BadSig => 16
  | .BadKey => 17
  | .BadTime => 18
  | .Other x => x

/-- `TsigData`: `time_signed` is a u48, `fudge` and `original_id` are u16. -/
structure TsigDataT where
  algorithm : DName
  timeSigned : Nat
  fudge : Nat
  mac : List Nat
  originalId : Nat
  error : TsigRC
  otherData : List Nat
deriving DecidableEq, Repr

/-- `TypeData`, restricted to the payload variants the modelled operations
construct or inspect; all other payloads behave exactly like `Other` in the
modelled code paths. -/
inductive TypeData where
  | A (addr : Nat)
  | NS (name : DName)
  | CNAME (name : DName)
  | SOA (soa : SoaDataT)
  | MX (preference : Nat) (exchange : DName)
  | TXT (strings : List (List Char))
  | TSIG (tsig : TsigDataT)
  | Other (type_ : TypeT) (bytes : List Nat)
deriving DecidableEq, Repr

/-- `TypeData::dns_type`. -/
def TypeData.dnsType : TypeData → TypeT
  | .A _ => .A
  | .NS _ => .NS
  | .CNAME _ => .CNAME
  | .SOA _ => .SOA
  | .MX _ _ => .MX
  | .TXT _ => .TXT
  | .TSIG _ => .TSIG
  | .Other t _ => t

/-- `PartialEq for SoaData` (derived; `Name` fields compare
case-insensitively). -/
def beqSoa (a b : SoaDataT) : Bool :=
  beqName a.mname b.mname && beqName a.rname b.rname &&
    decide (a.serial = b.serial) && decide (a.refresh = b.refresh) &&
    decide (a.retry = b.retry) && decide (a.expire = b.expire) &&
    decide (a.minimum = b.minimum)

/-- `PartialEq for TsigData` (derived). -/
def beqTsig (a b : TsigDataT) : Bool :=
  beqName a.algorithm b.algorithm && decide (a.timeSigned = b.timeSigned) &&
    decide (a.fudge = b.fudge) && decide (a.mac = b.mac) &&
    decide (a.originalId = b.originalId) && decide (a.error = b.error) &&
    decide (a.otherData = b.otherData)

/-- `PartialEq for TypeData` (derived: structural, with `Name` fields compared
through `Name`'s case-insensitive equality). -/
def beqData : TypeData → TypeData → Bool
  | .A a, .A b => decide (a = b)
  | .NS a, .NS b => beqName a b
  | .CNAME a, .CNAME b => beqName a b
  | .SOA a, .SOA b => beqSoa a b
  | .MX p a, .MX q b => decide (p = q) && beqName a b
  | .TXT a, .TXT b => decide (a = b)
  | .TSIG a, .TSIG b => beqTsig a b
  | .Other t a, .Other u b => decide (t = u) && decide (a = b)
  | _, _ => false

/-- A resource record (`adns-proto/src/record.rs`). -/
structure Record where
  name : DName
  type_ : TypeT
  class_ : ClassT
  ttl : Nat
  data : TypeData
deriving DecidableEq, Repr

/-- The zone tree (`adns-zone/src/lib.rs`), keeping the fields read or written
by the modelled operations (`records`, `zones`, `tsig_keys`, `class`,
`allow_md5_tsig`, `authoritative`). -/
inductive ZoneT where
  | mk (records : List Record) (zones : List (DName × ZoneT))
      (tsigKeys : List (List Char × List Nat)) (class_ : ClassT)
      (allowMd5Tsig : Bool) (authoritative : Bool)

def ZoneT.records : ZoneT → List Record
  | .mk rs _ _ _ _ _ => rs

def ZoneT.zones : ZoneT → List (DName × ZoneT)
  | .mk _ zs _ _ _ _ => zs

def ZoneT.tsigKeys : ZoneT → List (List Char × List Nat)
  | .mk _ _ ks _ _ _ => ks

def ZoneT.class_ : ZoneT → ClassT
  | .mk _ _ _ c _ _ => c

def ZoneT.allowMd5Tsig : ZoneT → Bool
  | .mk _ _ _ _ m _ => m

/-- Replace the record list, keeping every other field. -/
def ZoneT.withRecords : ZoneT → List Record → ZoneT
  | .mk _ zs ks c m a, rs => .mk rs zs ks c m a

/-- `Zone::default()` (derived `Default`: empty collections, class `IN`,
booleans false). -/
def defaultZone : ZoneT := .mk [] [] [] .IN false false

/-- `ZoneUpdateAction` (`adns-zone/src/updates.rs`). -/
inductive ZoneUpdateAction where
  | DeleteRecords (name : DName) (type_ : Option TypeT)
  | DeleteRecord (name : DName) (data : TypeData)
  | AddRecord (record : Record)
deriving DecidableEq, Repr

/-- The `for zone_record in zone.records.iter_mut().filter(..)` loop at the end
of the `AddRecord` arm: walk the list; at each record whose name and type match
the incoming record, replace it in place and stop if the incoming type is CNAME
or SOA or the payloads are equal; otherwise keep scanning; if no record is
replaced, push the incoming record at the end. -/
def addLoop (r : Record) : List Record → List Record
  | [] => [r]
  | x :: xs =>
    if beqName x.name r.name ∧ x.type_ = r.type_ then
      if r.type_ = .CNAME ∨ r.type_ = .SOA ∨ beqData r.data x.data then
        r :: xs
      else
        x :: addLoop r xs
    else
      x :: addLoop r xs

/-- The SOA-serial guard and replace/push phase of the `AddRecord` arm
(`updates.rs` lines 79–114); `r` is already TTL-clamped. -/
def applyAddSoaPhase (r : Record) (z : ZoneT) : ZoneT :=
  if r.type_ = .SOA then
    match r.data with
    | .SOA newSoa =>
      match z.records.find? (fun x => beqName x.name r.name && decide (x.type_ = TypeT.SOA)) with
      | some old =>
        match old.data with
        | .SOA oldSoa =>
          if oldSoa.serial > newSoa.serial then z
          else z.withRecords (addLoop r z.records)
        | _ => z.withRecords (addLoop r z.records)
      | none => z.withRecords (addLoop r z.records)
    | _ => z
  else z.withRecords (addLoop r z.records)

/-- `record.ttl = record.ttl.max(60)`. -/
def clampTtl (r : Record) : Record := { r with ttl := Nat.max r.ttl 60 }

/-- The CNAME-exclusivity guard of the `AddRecord` arm (zone-wide, over
`zone.records`), followed by the SOA phase; `r` is already TTL-clamped. -/
def applyAddGuard (r : Record) (z : ZoneT) : ZoneT :=
  if r.type_ = .CNAME then
    if z.records.length > 1 ||
        ((z.records.head?.map fun x => !decide (x.type_ = TypeT.CNAME)).getD false) then
      z
    else applyAddSoaPhase r z
  else if z.records.any fun x => decide (x.type_ = TypeT.CNAME) then z
  else applyAddSoaPhase r z

/-- The `AddRecord` arm of `ZoneUpdateAction::apply_to`: clamp the TTL to at
least 60, then apply the guards and the replace/push loop. -/
def applyAdd (r0 : Record) (z : ZoneT) : ZoneT :=
  applyAddGuard (clampTtl r0) z

/-- `ZoneUpdateAction::apply_to(zone_name, zone)`. -/
def ZoneUpdateAction.applyTo (a : ZoneUpdateAction) (zoneName : DName) (z : ZoneT) : ZoneT :=
  match a with
  | .DeleteRecords name none =>
    if beqName name zoneName then
      z.withRecords (z.records.filter fun r =>
        !beqName r.name name || decide (r.type_ = TypeT.SOA) || decide (r.type_ = TypeT.NS))
    else
      z.withRecords (z.records.filter fun r => !beqName r.name name)
  | .DeleteRecords name (some t) =>
    if beqName name zoneName ∧ (t = .SOA ∨ t = .NS) then z
    else
      z.withRecords (z.records.filter fun r =>
        !beqName r.name name || !decide (r.type_ = t))
  | .DeleteRecord name data =>
    if beqName name zoneName ∧
        (data.dnsType = .SOA ∨
          (data.dnsType = .NS ∧
            (z.records.filter fun x => decide (x.type_ = TypeT.NS)).length ≤ 1)) then
      z
    else
      z.withRecords (z.records.filter fun r =>
        !beqName r.name name || !decide (r.type_ = data.dnsType) || !beqData r.data data)
  | .AddRecord r => applyAdd r z

/-- Apply a sequence of actions with a fixed zone name, as
`ZoneUpdate::apply_to` does for the selected zone. -/
def applyActions (zoneName : DName) (acts : List ZoneUpdateAction) (z : ZoneT) : ZoneT :=
  acts.foldl (fun acc a => a.applyTo zoneName acc) z

/-- CNAME exclusivity of a record list: no owner name holds both a CNAME
record and a record of any other type (spec invariant (b)). -/
def cnameExclusive (rs : List Record) : Prop :=
  ∀ r1 ∈ rs, ∀ r2 ∈ rs,
    beqName r1.name r2.name = true → r1.type_ = TypeT.CNAME → r2.type_ = TypeT.CNAME

def nmA : DName := [['a']]

def nmB : DName := [['b']]

def cnameRecA : Record :=
  { name := nmA, type_ := .CNAME, class_ := .IN, ttl := 300, data := .CNAME nmB }

def aRecB : Record :=
  { name := nmB, type_ := .A, class_ := .IN, ttl := 300, data := .A 16909060 }

def zoneWithCname : ZoneT := .mk [cnameRecA] [] [] .IN false false

def zoneTwoA : ZoneT := .mk [aRecB, aRecB] [] [] .IN false false

def c2Name : DName := [['s']]

def c2OldSoa : SoaDataT :=
  { mname := nmA, rname := nmA, serial := 5, refresh := 0, retry := 0, expire := 0, minimum := 0 }

def c2NewSoa : SoaDataT :=
  { mname := nmA, rname := nmA, serial := 7, refresh := 0, retry := 0, expire := 0, minimum := 0 }

def c2LowSoa : SoaDataT :=
  { mname := nmA, rname := nmA, serial := 3, refresh := 0, retry := 0, expire := 0, minimum := 0 }

def c2OldRec : Record :=
  { name := c2Name, type_ := .SOA, class_ := .IN, ttl := 300, data := .SOA c2OldSoa }

def c2NewRec : Record :=
  { name := c2Name, type_ := .SOA, class_ := .IN, ttl := 300, data := .SOA c2NewSoa }

def c2LowRec : Record :=
  { name := c2Name, type_ := .SOA, class_ := .IN, ttl := 300, data := .SOA c2LowSoa }

def c2Zone : ZoneT := .mk [c2OldRec, cnameRecA] [] [] .IN false false

def c2ZoneW : ZoneT := .mk [c2OldRec] [] [] .IN false false

def c3Apex : DName := [['z']]

def c3NsData : TypeData := .NS nmB

def c3NsRec : Record :=
  { name := c3Apex, type_ := .NS, class_ := .IN, ttl := 300, data := c3NsData }

def c3Zone : ZoneT := .mk [c3NsRec, c3NsRec] [] [] .IN false false

def c3ZoneOneNs : ZoneT := .mk [c3NsRec] [] [] .IN false false

/-- `QueryResponse` (`adns-proto/src/header.rs`). -/
inductive QueryResponseT where
  | Query | Response
deriving DecidableEq, Repr

/-- `Opcode`. -/
inductive OpcodeT where
  | Query | InverseQuery | Status | Update
  | Other (code : Nat)
deriving DecidableEq, Repr

/-- `From<Opcode> for u8`. -/
def OpcodeT.toNat : OpcodeT → Nat
  | .Query => 0
  | .InverseQuery => 1
  | .Status => 2
  | .Update => 5
  | .Other x => x

/-- `From<u8> for Opcode` (the caller masks the value to 4 bits, so the panic
arm for values above 15 is unreachable). -/
def opcodeOfNat (v : Nat) : OpcodeT :=
  match v with
  | 0 => .Query
  | 1 => .InverseQuery
  | 2 => .Status
  | 5 => .Update
  | _ => .Other v

/-- `ResponseCode`. -/
inductive ResponseCodeT where
  | NoError | FormatError | ServerFailure | NameError | NotImplemented
  | Refused | YxDomain | YxRRSet | NxRRSet | NotAuth | NotZone
  | Other (code : Nat)
deriving DecidableEq, Repr

/-- `From<ResponseCode> for u8`. -/
def ResponseCodeT.toNat : ResponseCodeT → Nat
  | .NoError => 0
  | .FormatError => 1
  | .ServerFailure => 2
  | .NameError => 3
  | .NotImplemented => 4
  | .Refused => 5
  | .YxDomain => 6
  | .YxRRSet => 7
  | .NxRRSet => 8
  | .NotAuth => 9
  | .NotZone => 10
  | .Other x => x

/-- `From<u8> for ResponseCode` (value already masked to 4 bits). -/
def rcodeOfNat (v : Nat) : ResponseCodeT :=
  match v with
  | 0 => .NoError
  | 1 => .FormatError
  | 2 => .ServerFailure
  | 3 => .NameError
  | 4 => .NotImplemented
  | 5 => .Refused
  | 6 => .YxDomain
  | 7 => .YxRRSet
  | 8 => .NxRRSet
  | 9 => .NotAuth
  | 10 => .NotZone
  | _ => .Other v

/-- `Header`: `id` and the four counts are u16, `reserved` is u8. -/
structure HeaderT where
  id : Nat
  queryResponse : QueryResponseT
  opcode : OpcodeT
  isAuthoritative : Bool
  isTruncated : Bool
  recursionDesired : Bool
  recursionAvailable : Bool
  reserved : Nat
  responseCode : ResponseCodeT
  questionCount : Nat
  answerCount : Nat
  nameserverCount : Nat
  additionalRecordCount : Nat
deriving DecidableEq, Repr

/-- `Header::validate`: opcode and response code must be inside the documented
enumerations (not raw `Other` values). -/
def headerValidate (h : HeaderT) : Bool :=
  match h.opcode with
  | .Other _ => false
  | _ =>
    match h.responseCode with
    | .Other _ => false
    | _ => true

/-- Rust `bool as u8`. -/
def b2n (b : Bool) : Nat := if b then 1 else 0

/-- The 16-bit flags word built by `Header::to_bytes`.  The source ORs the
fields into disjoint bit ranges (QR at bit 15, opcode at bits 11–14, AA, TC,
RD, RA at bits 10–7, reserved at bits 4–6, RCODE at bits 0–3); since the
ranges are disjoint the bitwise ors equal this sum. -/
def headerFlags (h : HeaderT) : Nat :=
  (if h.queryResponse = QueryResponseT.Response then 1 else 0) * 32768 +
    h.opcode.toNat % 16 * 2048 +
    b2n h.isAuthoritative * 1024 +
    b2n h.isTruncated * 512 +
    b2n h.recursionDesired * 256 +
    b2n h.recursionAvailable * 128 +
    h.reserved % 8 * 16 +
    h.responseCode.toNat % 16

/-- `u16::to_be_bytes` (the argument is reduced to 16 bits, as the u16 type
does in the source). -/
def be16 (v : Nat) : List Nat := [v / 256 % 256, v % 256]

/-- `Header::to_bytes`: id, flags, then the four counts, big-endian. -/
def headerToBytes (h : HeaderT) : List Nat :=
  be16 h.id ++ be16 (headerFlags h) ++ be16 h.questionCount ++ be16 h.answerCount ++
    be16 h.nameserverCount ++ be16 h.additionalRecordCount

/-- Indexing into the 12-byte array. -/
def byteAt (l : List Nat) (i : Nat) : Nat := l.getD i 0

/-- `Header::parse`: shifts and masks become division and remainder by the
corresponding powers of two (the `as u8` casts become `% 256`). -/
def headerParse (d : List Nat) : HeaderT :=
  let flags := byteAt d 2 * 256 + byteAt d 3
  { id := byteAt d 0 * 256 + byteAt d 1
    queryResponse := if flags / 32768 % 2 = 0 then .Query else .Response
    opcode := opcodeOfNat (flags / 2048 % 256 % 16)
    isAuthoritative := decide (flags / 1024 % 2 ≠ 0)
    isTruncated := decide (flags / 512 % 2 ≠ 0)
    recursionDesired := decide (flags / 256 % 2 ≠ 0)
    recursionAvailable := decide (flags / 128 % 2 ≠ 0)
    reserved := flags / 16 % 8 % 256
    responseCode := rcodeOfNat (flags % 16 % 256)
    questionCount := byteAt d 4 * 256 + byteAt d 5
    answerCount := byteAt d 6 * 256 + byteAt d 7
    nameserverCount := byteAt d 8 * 256 + byteAt d 9
    additionalRecordCount := byteAt d 10 * 256 + byteAt d 11 }

/-- A header that `Header::validate` accepts but whose `reserved` field does
not fit the 3 reserved bits. -/
def c8BadHeader : HeaderT :=
  { id := 0, queryResponse := .Query, opcode := .Query, isAuthoritative := false,
    isTruncated := false, recursionDesired := false, recursionAvailable := false,
    reserved := 8, responseCode := .NoError, questionCount := 0, answerCount := 0,
    nameserverCount := 0, additionalRecordCount := 0 }

/-- A fully valid header used as round-trip witness. -/
def c8GoodHeader : HeaderT :=
  { id := 4660, queryResponse := .Response, opcode := .Update, isAuthoritative := true,
    isTruncated := false, recursionDesired := true, recursionAvailable := false,
    reserved := 5, responseCode := .NotAuth, questionCount := 1, answerCount := 2,
    nameserverCount := 3, additionalRecordCount := 4 }

/-- `PacketParseError` (`adns-proto/src/lib.rs`). -/
inductive PacketParseError where
  | HeaderTruncated | Truncated | InvalidHeader | UnexpectedEOF
  | CorruptName | InvalidUTF8 | CorruptRecord
deriving DecidableEq, Repr

/-- The loop of `DeserializeContext::read_name` (`context.rs` lines 170–209).
State: current cursor `idx`, the offset `startIndex` where this name read
started, the `continue_index` remembered at the first pointer, the labels
accumulated so far, and the remaining indirection `budget`.  The source counts
`indirection_count` upwards and fails once `indirection_count > 32`
(`MAX_NAME_INDIRECTION`); here the same check is the budget
`32 - indirection_count` counting down to zero, which makes the recursion
structural.  A byte with top bits `11` is a pointer: the source backs up one
byte, reads a big-endian u16 and masks it to 14 bits; the target must satisfy
`new_index < start_index` and `new_index <= max_length` or the read fails with
`CorruptName`.  A zero byte ends the name (restoring the cursor to just past
the first pointer, when one was followed).  A byte with top bits `00` is a raw
label length (the UTF-8 validation of the label bytes and `push_segment` are
elided: they affect only the returned label text, never the offset discipline
or the CorruptName outcomes modelled here).  Anything else is `CorruptName`. -/
def readNameGo (packet : List Nat) (maxLength startIndex idx : Nat)
    (contIdx : Option Nat) (acc : List (List Nat)) (budget : Nat) :
    Except PacketParseError (List (List Nat) × Nat) :=
  if idx + 1 > maxLength then .error .UnexpectedEOF
  else
    let start := packet.getD idx 0
    if start / 64 = 3 then
      if idx + 2 > maxLength then .error .UnexpectedEOF
      else
        let newIndex := (packet.getD idx 0 * 256 + packet.getD (idx + 1) 0) % 16384
        if newIndex ≥ startIndex ∨ newIndex > maxLength then .error .CorruptName
        else
          match budget with
          | 0 => .error .CorruptName
          | b + 1 =>
            readNameGo packet maxLength startIndex newIndex
              (some (contIdx.getD (idx + 2))) acc b
    else if start = 0 then
      .ok (acc, contIdx.getD (idx + 1))
    else if start / 64 = 0 then
      if idx + 1 + start > maxLength then .error .UnexpectedEOF
      else
        match budget with
        | 0 => .error .CorruptName
        | b + 1 =>
          readNameGo packet maxLength startIndex (idx + 1 + start) contIdx
            (acc ++ [(packet.drop (idx + 1)).take start]) b
    else .error .CorruptName

/-- `DeserializeContext::read_name`: start the loop at the current cursor with
no pointer followed yet and the full indirection budget of 32. -/
def read_name (packet : List Nat) (maxLength idx : Nat) :
    Except PacketParseError (List (List Nat) × Nat) :=
  readNameGo packet maxLength idx idx none [] 32

/-- `Name::ends_with`: equal (ASCII-case-insensitively) full strings, or the
reversed label sequence of `other` is a pointwise case-insensitive prefix of
the reversed label sequence of `self` (label-aligned suffix match). -/
def endsWith (a b : DName) : Bool :=
  if eqIC (joinDots a) (joinDots b) then true
  else if a.length < b.length then false
  else (a.reverse.zip b.reverse).all fun pr => eqIC pr.1 pr.2

/-- One pattern-label comparison inside `Name::contains`: the pattern label
`*` (compared exactly) matches anything, otherwise the labels must be equal
ASCII-case-insensitively. -/
def wildMatch (other ours : Label) : Bool :=
  decide (ours = ['*']) || eqIC other ours

/-- The no-wildcard-prefix arm of `Name::contains`: the label counts must be
equal and the labels match pointwise (with `*` matching any single label). -/
def forwardContains (pat n : DName) : Bool :=
  if n.length ≠ pat.length then false
  else (n.zip pat).all fun pr => wildMatch pr.1 pr.2

/-- `Name::contains` (self = the pattern, other = the queried name): after the
case-insensitive full-string shortcut, a leading `**` label (matched exactly)
requires `other` to have at least `len - 1` labels and compares the remaining
pattern labels against the tail of `other` from the right; a leading `*+`
requires at least `len` labels; otherwise the label counts must be equal and
labels are compared left to right. -/
def containsCore : DName → DName → Bool
  | p0 :: rest, n =>
    if p0 = ['*', '*'] then
      if n.length < (p0 :: rest).length - 1 then false
      else (n.reverse.zip rest.reverse).all fun pr => wildMatch pr.1 pr.2
    else if p0 = ['*', '+'] then
      if n.length < (p0 :: rest).length then false
      else (n.reverse.zip rest.reverse).all fun pr => wildMatch pr.1 pr.2
    else forwardContains (p0 :: rest) n
  | [], n => forwardContains [] n

def containsName (pat n : DName) : Bool :=
  if eqIC (joinDots pat) (joinDots n) then true
  else containsCore pat n

instance decWfLabel (l : Label) : Decidable (WfLabel l) :=
  inferInstanceAs (Decidable (l ≠ [] ∧ '.' ∉ l))

instance decWfName (n : DName) : Decidable (WfName n) :=
  inferInstanceAs (Decidable (∀ l ∈ n, WfLabel l))

/-- Specification vocabulary: a name with every label ASCII-lower-cased (the
equivalence class representative of `Name`'s case-insensitive equality). -/
def lowerName (n : DName) : DName := n.map (List.map lowerC)

def nCom : DName := [['c', 'o', 'm']]

def nTestCom : DName := [['t', 'e', 's', 't'], ['c', 'o', 'm']]

def nWestTestCom : DName := [['w', 'e', 's', 't'], ['t', 'e', 's', 't'], ['c', 'o', 'm']]

/-- A question entry (`adns-proto/src/question.rs`). -/
structure Question where
  name : DName
  type_ : TypeT
  class_ : ClassT
deriving DecidableEq, Repr

/-- A parsed DNS message (`adns-proto/src/packet.rs`): header plus the four
sections. -/
structure PacketT where
  header : HeaderT
  questions : List Question
  answers : List Record
  nameservers : List Record
  additional_records : List Record
deriving DecidableEq, Repr

/-- `TsigMode`. -/
inductive TsigMode where
  | Normal | TimersOnly
deriving DecidableEq, Repr

/-- `TsigError` (`adns-proto/src/tsig.rs`). -/
inductive TsigError where
  | UnknownAlgorithm | MissingKey | NoAuth | TimeMismatch
deriving DecidableEq, Repr

/-- `u32::to_be_bytes`. -/
def be32 (v : Nat) : List Nat :=
  [v / 16777216 % 256, v / 65536 % 256, v / 256 % 256, v % 256]

/-- `time_signed.to_be_bytes()[2..8]`: the low six bytes of the u48 timer,
big-endian. -/
def be48 (v : Nat) : List Nat :=
  [v / 1099511627776 % 256, v / 4294967296 % 256, v / 16777216 % 256,
    v / 65536 % 256, v / 256 % 256, v % 256]

/-- `SerializeContext::write_name` on a fresh context: no suffix of a single
name can already be in the compression table, so each label is written as
`length, bytes` followed by the terminating zero byte. -/
def encodeNameUncompressed (n : DName) : List Nat :=
  (n.map fun l => l.length :: l.map Char.toNat).flatten ++ [0]

/-- The TSIG variables appended to the MAC pre-image (`tsig.rs` lines 74–91):
Normal mode writes owner name, class ANY(255), TTL 0, algorithm name, timers,
error and other-data; TimersOnly writes just the timers. -/
def tsigVars (name : DName) (tsig : TsigDataT) (mode : TsigMode) : List Nat :=
  match mode with
  | .TimersOnly => be48 tsig.timeSigned ++ be16 tsig.fudge
  | .Normal =>
    encodeNameUncompressed name ++ be16 255 ++ be32 0 ++
      encodeNameUncompressed tsig.algorithm ++ be48 tsig.timeSigned ++ be16 tsig.fudge ++
      be16 tsig.error.toNat ++ be16 tsig.otherData.length ++ tsig.otherData

/-- The largest timestamp `chrono::Utc.timestamp_opt` accepts
(`MAX_UTC.timestamp()`); only its magnitude — far above any realistic
`time_signed` — matters for the verified properties. -/
def chronoMaxTimestamp : Nat := 8210298412799

/-- `tsig::calculate`: the HMAC primitive and the wall clock are explicit
parameters (`hmac alg key message`, `now` in Unix seconds).  Steps, in source
order: a message shorter than 2 bytes or a failed key lookup is `MissingKey`;
a `time_signed` outside chrono's range or farther than `fudge` seconds from
`now` is `TimeMismatch`; then the pre-image is `u16 len ++ request_mac`
(when chaining) ++ original id ++ message-after-id ++ TSIG variables, and an
algorithm outside the supported set (`hmac-md5.sig-alg.reg.int` only with
`allow_md5`) is `UnknownAlgorithm`. -/
def calculate (keyLookup : List Char → Option (List Nat)) (now : Int)
    (hmac : List Char → List Nat → List Nat → List Nat)
    (data : List Nat) (name : DName) (tsig : TsigDataT) (allowMd5 : Bool)
    (mode : TsigMode) (requestMac : Option (List Nat)) :
    Except TsigError (List Nat) :=
  if data.length < 2 then .error .MissingKey
  else
    match keyLookup (joinDots name) with
    | none => .error .MissingKey
    | some key =>
      if tsig.timeSigned > chronoMaxTimestamp then .error .TimeMismatch
      else if now - (tsig.fudge : Int) > (tsig.timeSigned : Int) ∨
          now + (tsig.fudge : Int) < (tsig.timeSigned : Int) then .error .TimeMismatch
      else
        let buf := (match requestMac with
            | some rm => be16 rm.length ++ rm
            | none => []) ++
          be16 tsig.originalId ++ data.drop 2 ++ tsigVars name tsig mode
        if joinDots tsig.algorithm = "hmac-sha1".data then
          .ok (hmac "hmac-sha1".data key buf)
        else if joinDots tsig.algorithm = "hmac-sha224".data then
          .ok (hmac "hmac-sha224".data key buf)
        else if joinDots tsig.algorithm = "hmac-sha256".data then
          .ok (hmac "hmac-sha256".data key buf)
        else if joinDots tsig.algorithm = "hmac-sha384".data then
          .ok (hmac "hmac-sha384".data key buf)
        else if joinDots tsig.algorithm = "hmac-sha512".data then
          .ok (hmac "hmac-sha512".data key buf)
        else if joinDots tsig.algorithm = "hmac-md5.sig-alg.reg.int".data ∧ allowMd5 then
          .ok (hmac "hmac-md5.sig-alg.reg.int".data key buf)
        else .error .UnknownAlgorithm

/-- `constant_time_eq`: byte-string equality (timing is not modelled). -/
def constantTimeEq (a b : List Nat) : Bool := decide (a = b)

/-- `tsig::validate`: recompute the MAC and compare with the one carried by
the TSIG record; a mismatch is `NoAuth`. -/
def validate (keyLookup : List Char → Option (List Nat)) (now : Int)
    (hmac : List Char → List Nat → List Nat → List Nat)
    (packet : List Nat) (name : DName) (tsig : TsigDataT) (allowMd5 : Bool)
    (mode : TsigMode) (requestMac : Option (List Nat)) :
    Except TsigError (List Nat) :=
  match calculate keyLookup now hmac packet name tsig allowMd5 mode requestMac with
  | .error e => .error e
  | .ok mac => if !constantTimeEq tsig.mac mac then .error .NoAuth else .ok mac

/-- `TsigError::to_record`: a replacement TSIG record with TTL 0, class 255,
an empty MAC, and the TSIG error code for this failure (unknown algorithm and
missing key map to BadKey, a MAC mismatch to BadSig, clock skew to
BadTime). -/
def TsigError.toRecord (e : TsigError) (name : DName) (tsig : TsigDataT) : Record :=
  { name := name
    type_ := .TSIG
    class_ := .Other 255
    ttl := 0
    data := .TSIG
      { algorithm := tsig.algorithm
        timeSigned := tsig.timeSigned
        fudge := tsig.fudge
        mac := []
        originalId := tsig.originalId
        error := (match e with
          | .UnknownAlgorithm => .BadKey
          | .MissingKey => .BadKey
          | .NoAuth => .BadSig
          | .TimeMismatch => .BadTime)
        otherData := [] } }

/-- `UpdateError` (`adns-server/src/server/respond_update.rs`). -/
inductive UpdateError where
  | BadZoneCount | MalformedZone | RecordNotZoned | NameNotFound
  | RRSetNotFound | FormatError | NameFound | RRSetFound
deriving DecidableEq, Repr

/-- `PartialEq` on the `(type, name, data)` triples collected from zone-class
prerequisites. -/
def beqTriple (a b : TypeT × DName × TypeData) : Bool :=
  decide (a.1 = b.1) && beqName a.2.1 b.2.1 && beqData a.2.2 b.2.2

def countTriple (x : TypeT × DName × TypeData)
    (l : List (TypeT × DName × TypeData)) : Nat :=
  (l.filter fun y => beqTriple x y).length

/-- The `prereq_records.sort(); zone_records.sort(); prereq_records !=
zone_records` comparison of `do_respond_update`: both lists are sorted with a
total order consistent with their equality and compared, which holds exactly
when the two lists are equal as multisets; modelled directly as multiset
equality over the triple equality. -/
def permEqTriples (l1 l2 : List (TypeT × DName × TypeData)) : Bool :=
  decide (l1.length = l2.length) &&
    l1.all fun x => decide (countTriple x l1 = countTriple x l2)

/-- The prerequisite loop of `do_respond_update` (`respond_update.rs` lines
81–124), checked against the selected zone's class and records; zone-class
prerequisites are collected (in order) for the aggregate RRset comparison,
every other accepted prerequisite must carry TTL 0 and empty RDATA. -/
def checkPrereqs (zclass : ClassT) (zrecords : List Record) :
    List Record → Except UpdateError (List (TypeT × DName × TypeData))
  | [] => .ok []
  | p :: ps =>
    if p.class_ = ClassT.ALL ∧ p.type_ = TypeT.ALL then
      if !zrecords.any (fun r => beqName r.name p.name) then .error .NameNotFound
      else if p.ttl ≠ 0 ∨ ¬beqData p.data (TypeData.Other p.type_ []) then .error .FormatError
      else checkPrereqs zclass zrecords ps
    else if p.class_ = ClassT.ALL then
      if !zrecords.any (fun r => beqName r.name p.name && decide (r.type_ = p.type_)) then
        .error .RRSetNotFound
      else if p.ttl ≠ 0 ∨ ¬beqData p.data (TypeData.Other p.type_ []) then .error .FormatError
      else checkPrereqs zclass zrecords ps
    else if p.class_ = ClassT.NONE ∧ p.type_ = TypeT.ALL then
      if zrecords.any (fun r => beqName r.name p.name) then .error .NameFound
      else if p.ttl ≠ 0 ∨ ¬beqData p.data (TypeData.Other p.type_ []) then .error .FormatError
      else checkPrereqs zclass zrecords ps
    else if p.class_ = ClassT.NONE then
      if zrecords.any (fun r => beqName r.name p.name && decide (r.type_ = p.type_)) then
        .error .RRSetFound
      else if p.ttl ≠ 0 ∨ ¬beqData p.data (TypeData.Other p.type_ []) then .error .FormatError
      else checkPrereqs zclass zrecords ps
    else if p.class_ = zclass then
      if p.ttl ≠ 0 then .error .FormatError
      else
        match checkPrereqs zclass zrecords ps with
        | .error e => .error e
        | .ok rest => .ok ((p.type_, p.name, p.data) :: rest)
    else .error .FormatError

/-- The update prescan loop (`respond_update.rs` lines 141–168). -/
def prescanUpdates (zclass : ClassT) (zonePat : DName) :
    List Record → Except UpdateError Unit
  | [] => .ok ()
  | u :: us =>
    if !endsWith u.name zonePat then .error .RecordNotZoned
    else if u.class_ = zclass then
      if u.type_.isQuestionType then .error .FormatError
      else prescanUpdates zclass zonePat us
    else if u.class_ = ClassT.ALL then
      if u.ttl ≠ 0 ∨ ¬beqData u.data (TypeData.Other u.type_ []) ∨
          (u.type_.isQuestionType ∧ u.type_ ≠ TypeT.ALL) then .error .FormatError
      else prescanUpdates zclass zonePat us
    else if u.class_ = ClassT.NONE then
      if u.ttl ≠ 0 ∨ u.type_.isQuestionType then .error .FormatError
      else prescanUpdates zclass zonePat us
    else .error .FormatError

/-- The action-translation loop of `do_respond_update` (lines 172–208). -/
def translateUpdates (zclass : ClassT) :
    List Record → Except UpdateError (List ZoneUpdateAction)
  | [] => .ok []
  | u :: us =>
    if u.class_ = zclass then
      match translateUpdates zclass us with
      | .error e => .error e
      | .ok rest => .ok (ZoneUpdateAction.AddRecord u :: rest)
    else if u.class_ = ClassT.ALL then
      match translateUpdates zclass us with
      | .error e => .error e
      | .ok rest =>
        .ok (ZoneUpdateAction.DeleteRecords u.name
          (if u.type_ = TypeT.ALL then none else some u.type_) :: rest)
    else if u.class_ = ClassT.NONE then
      match translateUpdates zclass us with
      | .error e => .error e
      | .ok rest => .ok (ZoneUpdateAction.DeleteRecord u.name u.data :: rest)
    else .error .FormatError

/-- `ZoneUpdate`. -/
structure ZoneUpdateT where
  zone_name : DName
  actions : List ZoneUpdateAction
deriving DecidableEq, Repr

/-- `zone.zones.get(&question.name)` (IndexMap keyed by `Name`, whose equality
is case-insensitive). -/
def lookupZone (zones : List (DName × ZoneT)) (name : DName) : Option ZoneT :=
  (zones.find? fun pr => beqName pr.1 name).map (·.2)

/-- The target-zone selection of `do_respond_update` (lines 44–55): an empty
question name selects the root zone with the pattern `**`; otherwise the
named subzone (or a fresh default zone when absent) with the question name as
pattern. -/
def selectZone (zone : ZoneT) (qname : DName) : DName × ZoneT :=
  if (joinDots qname).isEmpty then ([['*', '*']], zone)
  else
    match lookupZone zone.zones qname with
    | some z => (qname, z)
    | none => (qname, defaultZone)

/-- `do_respond_update`: zone-section validation, prerequisite evaluation,
the aggregate zone-class RRset comparison, the update prescan, and the
translation to `ZoneUpdateAction` values. -/
def do_respond_update (zone : ZoneT) (packet : PacketT) :
    Except UpdateError ZoneUpdateT :=
  match packet.questions with
  | [question] =>
    if question.type_ ≠ TypeT.SOA ∨ question.class_ ≠ zone.class_ then .error .MalformedZone
    else
      let sel := selectZone zone question.name
      match checkPrereqs sel.2.class_ sel.2.records packet.answers with
      | .error e => .error e
      | .ok prereqRecords =>
        if prereqRecords ≠ [] ∧
            ¬permEqTriples prereqRecords
              (sel.2.records.map fun r => (r.type_, r.name, r.data)) then
          .error .RRSetNotFound
        else
          match prescanUpdates sel.2.class_ sel.1 packet.nameservers with
          | .error e => .error e
          | .ok _ =>
            match translateUpdates sel.2.class_ packet.nameservers with
            | .error e => .error e
            | .ok actions => .ok { zone_name := question.name, actions := actions }
  | _ => .error .BadZoneCount

/-- Overwrite the response code of a packet's header. -/
def setRcode (p : PacketT) (rc : ResponseCodeT) : PacketT :=
  { p with header := { p.header with responseCode := rc } }

/-- `respond_update`: translate `do_respond_update` errors into response
codes on the prepared response packet. -/
def respond_update (zone : ZoneT) (packet response : PacketT) :
    Except PacketT (ZoneUpdateT × PacketT) :=
  match do_respond_update zone packet with
  | .ok x => .ok (x, response)
  | .error e =>
    .error (setRcode response (match e with
      | .BadZoneCount | .MalformedZone | .FormatError | .RecordNotZoned =>
        ResponseCodeT.FormatError
      | .NameNotFound => .NameError
      | .RRSetNotFound => .NxRRSet
      | .NameFound => .YxDomain
      | .RRSetFound => .YxRRSet))

/-- `axfr`: an AXFR request is exactly one question of type AXFR and class IN
with empty answer and authority sections. -/
def axfrName (packet : PacketT) : Option DName :=
  if packet.questions.length ≠ 1 ∨ ¬packet.answers.isEmpty ∨
      ¬packet.nameservers.isEmpty then none
  else
    match packet.questions.head? with
    | some q => if q.type_ ≠ TypeT.AXFR ∨ q.class_ ≠ ClassT.IN then none else some q.name
    | none => none

/-- `TsigInfo` carried into response signing. -/
structure TsigInfoT where
  name : DName
  request_mac : List Nat
  algorithm : DName
deriving DecidableEq, Repr

/-- `zone.tsig_keys.get(name)`: the key table is keyed by exact strings. -/
def lookupKey (keys : List (List Char × List Nat)) (name : List Char) :
    Option (List Nat) :=
  (keys.find? fun pr => decide (pr.1 = name)).map (·.2)

/-- The fresh response packet built at the top of `respond` (lines 319–333). -/
def freshResponse (packet : PacketT) : PacketT :=
  { header :=
      { id := packet.header.id, queryResponse := .Response, opcode := packet.header.opcode,
        isAuthoritative := false, isTruncated := false, recursionDesired := false,
        recursionAvailable := false, reserved := 0, responseCode := .NoError,
        questionCount := 0, answerCount := 0, nameserverCount := 0,
        additionalRecordCount := 0 }
    questions := [], answers := [], nameservers := [], additional_records := [] }

/-- The TSIG phase of `respond` (lines 345–382): rebuild the signed bytes
with the additional-record count decremented, validate, and on failure attach
the replacement TSIG record and answer `NotAuth` unsigned. -/
def tsigPhase (now : Int) (hmac : List Char → List Nat → List Nat → List Nat)
    (zone : ZoneT) (response : PacketT) (header : HeaderT) :
    Option (DName × TsigDataT × List Nat) → Except PacketT (Option TsigInfoT)
  | none => .ok none
  | some (name, tsig, hmacSlice) =>
    let newHeader :=
      { header with additionalRecordCount := header.additionalRecordCount - 1 }
    let rawPacket := headerToBytes newHeader ++ hmacSlice.drop 12
    match validate (lookupKey zone.tsigKeys) now hmac rawPacket name tsig
        zone.allowMd5Tsig TsigMode.Normal none with
    | .ok mac => .ok (some { name := name, request_mac := mac, algorithm := tsig.algorithm })
    | .error e =>
      .error (setRcode
        { response with
          additional_records := response.additional_records ++ [e.toRecord name tsig] }
        ResponseCodeT.NotAuth)

/-- `respond` (`respond.rs` lines 297–462), as a function of the parsed
packet.  Effects are explicit: `now` and `hmac` stand for the wall clock and
the HMAC primitive; `respondQueryFn` and `respondAxfrFn` stand for the
subroutines `respond_query` and `respond_axfr` (whose internals no verified
property here depends on — the stated properties hold for every behaviour of
those two functions); `tsigValidatable` is the detached TSIG of
`Packet::parse`; `sendOk` tells whether the provider channel send and the
one-shot acknowledgement succeeded.  The result carries the response
packet(s), the `TsigInfo` used for signing, and the `ZoneUpdate` delivered to
the provider (`none` when nothing was sent). -/
def respond (now : Int) (hmac : List Char → List Nat → List Nat → List Nat)
    (respondQueryFn : ZoneT → PacketT → PacketT → Option PacketT)
    (respondAxfrFn : ZoneT → DName → PacketT → List PacketT)
    (isTcp : Bool) (zone : ZoneT) (packet : PacketT)
    (tsigValidatable : Option (DName × TsigDataT × List Nat)) (sendOk : Bool) :
    Option (List PacketT × Option TsigInfoT × Option ZoneUpdateT) :=
  let response := freshResponse packet
  if packet.header.queryResponse ≠ QueryResponseT.Query ∨
      packet.header.responseCode ≠ ResponseCodeT.NoError then
    some ([setRcode response .NotImplemented], none, none)
  else if packet.header.isTruncated then none
  else
    match tsigPhase now hmac zone response packet.header tsigValidatable with
    | .error resp => some ([resp], none, none)
    | .ok tsigInfo =>
      match packet.header.opcode with
      | OpcodeT.Query =>
        match axfrName packet with
        | some axname =>
          if tsigInfo = none ∨ isTcp = false then
            some ([setRcode response .Refused], tsigInfo, none)
          else some (respondAxfrFn zone axname response, tsigInfo, none)
        | none =>
          match respondQueryFn zone packet response with
          | none => none
          | some resp => some ([resp], tsigInfo, none)
      | OpcodeT.Update =>
        if tsigInfo = none then some ([setRcode response .Refused], none, none)
        else
          match respond_update zone packet response with
          | .ok (update, pkt) =>
            some ([if sendOk then pkt else setRcode pkt .ServerFailure], tsigInfo, some update)
          | .error pkt => some ([pkt], tsigInfo, none)
      | _ => some ([setRcode response .NotImplemented], tsigInfo, none)


def c4Header : HeaderT :=
  { id := 2, queryResponse := .Query, opcode := .Query, isAuthoritative := false,
    isTruncated := false, recursionDesired := false, recursionAvailable := false,
    reserved := 0, responseCode := .NoError, questionCount := 0, answerCount := 0,
    nameserverCount := 0, additionalRecordCount := 1 }

def c4Packet : PacketT :=
  { header := c4Header, questions := [], answers := [], nameservers := [],
    additional_records := [] }

def c4Tsig : TsigDataT :=
  { algorithm := [['h', 'm', 'a', 'c', '-', 's', 'h', 'a', '1']], timeSigned := 0,
    fudge := 0, mac := [1], originalId := 2, error := .NoError, otherData := [] }

def c4KeyName : DName := [['k']]

def zeroHmac : List Char → List Nat → List Nat → List Nat := fun _ _ _ => [0]

def noneQueryFn : ZoneT → PacketT → PacketT → Option PacketT := fun _ _ _ => none

def nilAxfrFn : ZoneT → DName → PacketT → List PacketT := fun _ _ _ => []

def c5Header : HeaderT :=
  { id := 1, queryResponse := .Query, opcode := .Query, isAuthoritative := false,
    isTruncated := false, recursionDesired := false, recursionAvailable := false,
    reserved := 0, responseCode := .NoError, questionCount := 1, answerCount := 0,
    nameserverCount := 0, additionalRecordCount := 1 }

def c5Packet : PacketT :=
  { header := c5Header,
    questions := [{ name := nCom, type_ := .AXFR, class_ := .IN }],
    answers := [], nameservers := [], additional_records := [] }

def c5Zone : ZoneT := .mk [] [] [(['k'], [7])] .IN false true

def c5Tsig : TsigDataT :=
  { algorithm := [['h', 'm', 'a', 'c', '-', 's', 'h', 'a', '1']], timeSigned := 0,
    fudge := 0, mac := [1], originalId := 1, error := .NoError, otherData := [] }

def c5Packet2 : PacketT :=
  { c5Packet with header := { c5Header with additionalRecordCount := 0 } }

def c6NameA : DName := [['a']]

def c6NameB : DName := [['b']]

def c6RecA : Record :=
  { name := c6NameA, type_ := .A, class_ := .IN, ttl := 60,
    data := TypeData.Other TypeT.A [1, 2, 3, 4] }

def c6Zone : ZoneT := .mk [c6RecA] [] [(['k'], [7])] .IN false true

def c6Q : Question := { name := [], type_ := .SOA, class_ := .IN }

def c6PrereqA : Record :=
  { name := c6NameB, type_ := .ALL, class_ := .ALL, ttl := 0,
    data := TypeData.Other TypeT.ALL [] }

def c6PrereqB : Record :=
  { name := c6NameA, type_ := .ALL, class_ := .NONE, ttl := 0,
    data := TypeData.Other TypeT.ALL [] }

def c6Header : HeaderT :=
  { id := 3, queryResponse := .Query, opcode := .Update, isAuthoritative := false,
    isTruncated := false, recursionDesired := false, recursionAvailable := false,
    reserved := 0, responseCode := .NoError, questionCount := 1, answerCount := 2,
    nameserverCount := 0, additionalRecordCount := 1 }

def c6Packet : PacketT :=
  { header := c6Header, questions := [c6Q], answers := [c6PrereqA, c6PrereqB],
    nameservers := [], additional_records := [] }

def c6Tsig : TsigDataT :=
  { algorithm := [['h', 'm', 'a', 'c', '-', 's', 'h', 'a', '1']], timeSigned := 0,
    fudge := 0, mac := [0], originalId := 3, error := .NoError, otherData := [] }

def c6WHeader : HeaderT :=
  { id := 4, queryResponse := .Query, opcode := .Update, isAuthoritative := false,
    isTruncated := false, recursionDesired := false, recursionAvailable := false,
    reserved := 0, responseCode := .NoError, questionCount := 1, answerCount := 1,
    nameserverCount := 0, additionalRecordCount := 1 }

def c6WPacket : PacketT :=
  { header := c6WHeader, questions := [c6Q], answers := [c6PrereqB],
    nameservers := [], additional_records := [] }

@[simp]
theorem ZoneT.withRecords_records (z : ZoneT) (rs : List Record) :
    (z.withRecords rs).records = rs := by
  cases z
  rfl

theorem cnameExclusive_of_subset {l l2 : List Record} (h : cnameExclusive l)
    (hs : ∀ x ∈ l2, x ∈ l) : cnameExclusive l2 :=
  fun r1 h1 r2 h2 hb hc => h r1 (hs _ h1) r2 (hs _ h2) hb hc

theorem mem_of_mem_addLoop {r x : Record} {l : List Record}
    (h : x ∈ addLoop r l) : x = r ∨ x ∈ l := by
  induction l with
  | nil =>
    simp only [addLoop, List.mem_singleton] at h
    exact Or.inl h
  | cons y ys ih =>
    simp only [addLoop] at h
    split at h
    · split at h
      · rcases List.mem_cons.mp h with h | h
        · exact Or.inl h
        · exact Or.inr (List.mem_cons.mpr (Or.inr h))
      · rcases List.mem_cons.mp h with h | h
        · exact Or.inr (List.mem_cons.mpr (Or.inl h))
        · rcases ih h with h | h
          · exact Or.inl h
          · exact Or.inr (List.mem_cons.mpr (Or.inr h))
    · rcases List.mem_cons.mp h with h | h
      · exact Or.inr (List.mem_cons.mpr (Or.inl h))
      · rcases ih h with h | h
        · exact Or.inl h
        · exact Or.inr (List.mem_cons.mpr (Or.inr h))

theorem cnameExclusive_addLoop_of_noCname {r : Record} {l : List Record}
    (hr : r.type_ ≠ TypeT.CNAME) (hl : ∀ x ∈ l, x.type_ ≠ TypeT.CNAME) :
    cnameExclusive (addLoop r l) := by
  intro r1 h1 _ _ _ hc
  rcases mem_of_mem_addLoop h1 with h | h
  · exact absurd (h ▸ hc) hr
  · exact absurd hc (hl _ h)

theorem cnameExclusive_addLoop_of_allCname {r : Record} {l : List Record}
    (hr : r.type_ = TypeT.CNAME) (hl : ∀ x ∈ l, x.type_ = TypeT.CNAME) :
    cnameExclusive (addLoop r l) := by
  intro _ _ r2 h2 _ _
  rcases mem_of_mem_addLoop h2 with h | h
  · exact h ▸ hr
  · exact hl _ h

theorem cnameExclusive_applyAddSoaPhase_of_noCname {r : Record} {z : ZoneT}
    (h : cnameExclusive z.records) (hr : r.type_ ≠ TypeT.CNAME)
    (hl : ∀ x ∈ z.records, x.type_ ≠ TypeT.CNAME) :
    cnameExclusive (applyAddSoaPhase r z).records := by
  unfold applyAddSoaPhase
  split
  · split
    · split
      · split
        · split
          · exact h
          · rw [ZoneT.withRecords_records]
            exact cnameExclusive_addLoop_of_noCname hr hl
        · rw [ZoneT.withRecords_records]
          exact cnameExclusive_addLoop_of_noCname hr hl
      · rw [ZoneT.withRecords_records]
        exact cnameExclusive_addLoop_of_noCname hr hl
    · exact h
  · rw [ZoneT.withRecords_records]
    exact cnameExclusive_addLoop_of_noCname hr hl

theorem cnameExclusive_applyAddGuard {r : Record} {z : ZoneT}
    (h : cnameExclusive z.records) : cnameExclusive (applyAddGuard r z).records := by
  unfold applyAddGuard
  by_cases hc : r.type_ = TypeT.CNAME
  · rw [if_pos hc]
    by_cases hg : (decide (z.records.length > 1) ||
        ((z.records.head?.map fun x => !decide (x.type_ = TypeT.CNAME)).getD false)) = true
    · rw [if_pos hg]
      exact h
    · rw [if_neg hg]
      have hshape : ∀ y ∈ z.records, y.type_ = TypeT.CNAME := by
        cases hz : z.records with
        | nil => simp
        | cons x xs =>
          cases xs with
          | nil =>
            intro y hy
            rcases List.mem_singleton.mp hy with rfl
            by_contra hx
            exact hg (by simp [hz, hx])
          | cons b bs =>
            exfalso
            exact hg (by simp [hz])
      unfold applyAddSoaPhase
      rw [if_neg (by simp [hc]), ZoneT.withRecords_records]
      exact cnameExclusive_addLoop_of_allCname hc hshape
  · rw [if_neg hc]
    by_cases ha : (z.records.any fun x => decide (x.type_ = TypeT.CNAME)) = true
    · rw [if_pos ha]
      exact h
    · rw [if_neg ha]
      have hl : ∀ x ∈ z.records, x.type_ ≠ TypeT.CNAME := by
        intro x hx hxc
        exact ha (List.any_eq_true.mpr ⟨x, hx, by simp [hxc]⟩)
      exact cnameExclusive_applyAddSoaPhase_of_noCname h hc hl

theorem cnameExclusive_applyTo (a : ZoneUpdateAction) (zn : DName) (z : ZoneT)
    (h : cnameExclusive z.records) : cnameExclusive (a.applyTo zn z).records := by
  cases a with
  | DeleteRecords name ot =>
    cases ot with
    | none =>
      simp only [ZoneUpdateAction.applyTo]
      split
      · rw [ZoneT.withRecords_records]
        exact cnameExclusive_of_subset h fun x hx => (List.mem_filter.mp hx).1
      · rw [ZoneT.withRecords_records]
        exact cnameExclusive_of_subset h fun x hx => (List.mem_filter.mp hx).1
    | some t =>
      simp only [ZoneUpdateAction.applyTo]
      split
      · exact h
      · rw [ZoneT.withRecords_records]
        exact cnameExclusive_of_subset h fun x hx => (List.mem_filter.mp hx).1
  | DeleteRecord name data =>
    simp only [ZoneUpdateAction.applyTo]
    split
    · exact h
    · rw [ZoneT.withRecords_records]
      exact cnameExclusive_of_subset h fun x hx => (List.mem_filter.mp hx).1
  | AddRecord r =>
    simp only [ZoneUpdateAction.applyTo, applyAdd]
    exact cnameExclusive_applyAddGuard h

/-- C1: CNAME exclusivity is an invariant of zone updates — starting from any
zone whose record list satisfies it, after applying any finite sequence of
`ZoneUpdateAction` values (`AddRecord`, `DeleteRecord`, `DeleteRecords`) via
`apply_to`, no owner name in the zone holds both a CNAME record and a record
of any other type. -/
theorem C1_cname_exclusivity (zoneName : DName) (actions : List ZoneUpdateAction)
    (z : ZoneT) (h : cnameExclusive z.records) :
    cnameExclusive (applyActions zoneName actions z).records := by
  induction actions generalizing z with
  | nil => simpa [applyActions] using h
  | cons a as ih =>
    rw [applyActions, List.foldl_cons]
    exact ih _ (cnameExclusive_applyTo a zoneName z h)

/-- Witness for C1 at a concrete zone and action sequence. -/
theorem C1_cname_exclusivity_witness :
    cnameExclusive (applyActions nmA
      [.AddRecord cnameRecA, .AddRecord aRecB, .DeleteRecords nmA none]
      defaultZone).records :=
  C1_cname_exclusivity nmA _ defaultZone (by intro r1 h1; exact absurd h1 (List.not_mem_nil r1))

/-- C10: the `AddRecord` CNAME guard is zone-wide, not per-name — for every
zone whose record list contains at least one CNAME record, `AddRecord` with
any non-CNAME record leaves the zone unchanged even when the new record's
owner name differs from every CNAME owner name; and `AddRecord` of a CNAME
record leaves the zone unchanged unless the record list is empty or consists
of exactly one record that is a CNAME. -/
theorem C10_cname_guard_zone_wide :
    (∀ (zn : DName) (z : ZoneT) (r : Record), r.type_ ≠ TypeT.CNAME →
      (∃ x ∈ z.records, x.type_ = TypeT.CNAME) →
      (ZoneUpdateAction.AddRecord r).applyTo zn z = z)
    ∧
    (∀ (zn : DName) (z : ZoneT) (r : Record), r.type_ = TypeT.CNAME →
      ¬(z.records = [] ∨ ∃ x, z.records = [x] ∧ x.type_ = TypeT.CNAME) →
      (ZoneUpdateAction.AddRecord r).applyTo zn z = z) := by
  constructor
  · intro zn z r hr hex
    obtain ⟨x, hx, hxc⟩ := hex
    simp only [ZoneUpdateAction.applyTo, applyAdd, applyAddGuard]
    rw [if_neg (show ¬(clampTtl r).type_ = TypeT.CNAME from hr),
      if_pos (List.any_eq_true.mpr ⟨x, hx, by simp [hxc]⟩)]
  · intro zn z r hr hshape
    simp only [ZoneUpdateAction.applyTo, applyAdd, applyAddGuard]
    rw [if_pos (show (clampTtl r).type_ = TypeT.CNAME from hr)]
    have hg : (decide (z.records.length > 1) ||
        ((z.records.head?.map fun x => !decide (x.type_ = TypeT.CNAME)).getD false)) = true := by
      cases hz : z.records with
      | nil => exact absurd (Or.inl rfl) (hz ▸ hshape)
      | cons x xs =>
        cases xs with
        | nil =>
          have hx : ¬x.type_ = TypeT.CNAME := by
            intro hxc
            exact hshape (hz ▸ Or.inr ⟨x, rfl, hxc⟩)
          simp [hz, hx]
        | cons b bs => simp [hz]
    rw [if_pos hg]

@[simp]
theorem clampTtl_type (r : Record) : (clampTtl r).type_ = r.type_ := rfl

@[simp]
theorem clampTtl_name (r : Record) : (clampTtl r).name = r.name := rfl

@[simp]
theorem clampTtl_data (r : Record) : (clampTtl r).data = r.data := rfl

theorem addLoop_replace_first {r old : Record} {l1 l2 : List Record}
    (h1 : ∀ y ∈ l1, ¬(beqName y.name r.name = true ∧ y.type_ = r.type_))
    (h2 : beqName old.name r.name = true) (h3 : old.type_ = r.type_)
    (hcond : r.type_ = TypeT.CNAME ∨ r.type_ = TypeT.SOA ∨ beqData r.data old.data = true) :
    addLoop r (l1 ++ old :: l2) = l1 ++ r :: l2 := by
  induction l1 with
  | nil =>
    simp only [List.nil_append, addLoop]
    rw [if_pos ⟨h2, h3⟩, if_pos hcond]
  | cons y ys ih =>
    simp only [List.cons_append, addLoop, List.append_eq]
    rw [if_neg (h1 y (List.mem_cons_self y ys)), ih fun a ha => h1 a (List.mem_cons_of_mem _ ha)]

theorem find?_append_cons {p : Record → Bool} {l1 l2 : List Record} {old : Record}
    (h1 : ∀ y ∈ l1, p y = false) (h2 : p old = true) :
    (l1 ++ old :: l2).find? p = some old := by
  induction l1 with
  | nil =>
    rw [List.nil_append]
    exact List.find?_cons_of_pos _ h2
  | cons y ys ih =>
    rw [List.cons_append, List.find?_cons_of_neg _ (by simp [h1 y (List.mem_cons_self y ys)]),
      ih fun a ha => h1 a (List.mem_cons_of_mem _ ha)]

/-- Boolean form of the first-match predicate used by the SOA guard. -/
theorem soaFindPred_eq_false {r y : Record}
    (h : ¬(beqName y.name r.name = true ∧ y.type_ = TypeT.SOA)) :
    (beqName y.name r.name && decide (y.type_ = TypeT.SOA)) = false := by
  by_cases hb : beqName y.name r.name = true
  · simp only [hb, Bool.true_and, decide_eq_false_iff_not]
    exact fun hty => h ⟨hb, hty⟩
  · simp [Bool.eq_false_iff.mpr hb]

/-- C2 (amended): for every zone and every `AddRecord` action carrying an SOA
record with serial `s`, (1) if the zone already holds an SOA record at the
same owner name whose serial is strictly greater than `s`, then `apply_to`
leaves the zone unchanged; (2) if the existing serial is less than or equal to
`s` **and the zone's record list holds no CNAME record** (otherwise the
zone-wide CNAME guard of `AddRecord` makes the action a no-op first), the
existing SOA record is replaced in place by the incoming record with its TTL
clamped to at least 60. -/
theorem C2_soa_monotonicity_amended :
    (∀ (zn : DName) (z : ZoneT) (r old : Record) (sNew sOld : SoaDataT)
        (l1 l2 : List Record),
      r.type_ = TypeT.SOA → r.data = TypeData.SOA sNew →
      z.records = l1 ++ old :: l2 →
      (∀ y ∈ l1, ¬(beqName y.name r.name = true ∧ y.type_ = TypeT.SOA)) →
      beqName old.name r.name = true → old.type_ = TypeT.SOA →
      old.data = TypeData.SOA sOld → sOld.serial > sNew.serial →
      (ZoneUpdateAction.AddRecord r).applyTo zn z = z)
    ∧
    (∀ (zn : DName) (z : ZoneT) (r old : Record) (sNew sOld : SoaDataT)
        (l1 l2 : List Record),
      r.type_ = TypeT.SOA → r.data = TypeData.SOA sNew →
      z.records = l1 ++ old :: l2 →
      (∀ y ∈ l1, ¬(beqName y.name r.name = true ∧ y.type_ = TypeT.SOA)) →
      beqName old.name r.name = true → old.type_ = TypeT.SOA →
      old.data = TypeData.SOA sOld → sOld.serial ≤ sNew.serial →
      (∀ x ∈ z.records, x.type_ ≠ TypeT.CNAME) →
      (ZoneUpdateAction.AddRecord r).applyTo zn z = z.withRecords (l1 ++ clampTtl r :: l2)) := by
  constructor
  · intro zn z r old sNew sOld l1 l2 hty hdata hsplit hfirst hname holdty holddata hser
    simp only [ZoneUpdateAction.applyTo, applyAdd, applyAddGuard, clampTtl_type]
    rw [if_neg (by rw [hty]; intro hh; cases hh)]
    by_cases ha : (z.records.any fun x => decide (x.type_ = TypeT.CNAME)) = true
    · rw [if_pos ha]
    · rw [if_neg ha]
      unfold applyAddSoaPhase
      rw [if_pos (by simpa using hty)]
      have hdata2 : (clampTtl r).data = TypeData.SOA sNew := by simpa using hdata
      have hfind : (z.records.find? fun x =>
          beqName x.name (clampTtl r).name && decide (x.type_ = TypeT.SOA)) = some old := by
        rw [hsplit]
        exact find?_append_cons
          (fun y hy => by simpa using soaFindPred_eq_false (hfirst y hy))
          (by simp [hname, holdty])
      simp only [hdata2, hfind, holddata]
      rw [if_pos hser]
  · intro zn z r old sNew sOld l1 l2 hty hdata hsplit hfirst hname holdty holddata hser hnoc
    simp only [ZoneUpdateAction.applyTo, applyAdd, applyAddGuard, clampTtl_type]
    rw [if_neg (by rw [hty]; intro hh; cases hh)]
    rw [if_neg (by
      intro ha
      obtain ⟨x, hx, hxc⟩ := List.any_eq_true.mp ha
      exact hnoc x hx (by simpa using hxc))]
    unfold applyAddSoaPhase
    rw [if_pos (by simpa using hty)]
    have hdata2 : (clampTtl r).data = TypeData.SOA sNew := by simpa using hdata
    have hfind : (z.records.find? fun x =>
        beqName x.name (clampTtl r).name && decide (x.type_ = TypeT.SOA)) = some old := by
      rw [hsplit]
      exact find?_append_cons
        (fun y hy => by simpa using soaFindPred_eq_false (hfirst y hy))
        (by simp [hname, holdty])
    simp only [hdata2, hfind, holddata]
    rw [if_neg (by omega), hsplit]
    congr 1
    exact addLoop_replace_first
      (fun y hy => by simpa [hty] using hfirst y hy)
      (by simpa using hname) (by simp [holdty, hty])
      (Or.inr (Or.inl (by simp [hty])))

/-- Counterexample to C2 as stated: the zone holds an SOA record at the same
owner name with serial 5 ≤ 7, yet adding an SOA record with serial 7 leaves
the zone completely unchanged (no replacement happens), because the record
list also contains a CNAME record (at a different owner name) and the
zone-wide CNAME guard fires before the SOA logic. -/
theorem C2_soa_monotonicity_counterexample :
    beqName c2OldRec.name c2NewRec.name = true ∧
    c2OldRec.type_ = TypeT.SOA ∧ c2OldRec.data = TypeData.SOA c2OldSoa ∧
    c2NewRec.type_ = TypeT.SOA ∧ c2NewRec.data = TypeData.SOA c2NewSoa ∧
    c2OldSoa.serial ≤ c2NewSoa.serial ∧
    c2OldRec ∈ c2Zone.records ∧
    (ZoneUpdateAction.AddRecord c2NewRec).applyTo c2Name c2Zone = c2Zone ∧
    clampTtl c2NewRec ∉ c2Zone.records :=
  ⟨by decide, rfl, rfl, rfl, rfl, by decide, by decide, rfl, by decide⟩

/-- Witness for C2 (amended) at a concrete zone: an add with a lower serial is
a no-op, an add with a higher serial replaces the stored SOA in place. -/
theorem C2_soa_monotonicity_amended_witness :
    (ZoneUpdateAction.AddRecord c2LowRec).applyTo c2Name c2ZoneW = c2ZoneW ∧
    (ZoneUpdateAction.AddRecord c2NewRec).applyTo c2Name c2ZoneW =
      c2ZoneW.withRecords [clampTtl c2NewRec] := by
  constructor
  · exact C2_soa_monotonicity_amended.1 c2Name c2ZoneW c2LowRec c2OldRec c2LowSoa c2OldSoa
      [] [] rfl rfl rfl (by simp) (by decide) rfl rfl (by decide)
  · exact C2_soa_monotonicity_amended.2 c2Name c2ZoneW c2NewRec c2OldRec c2NewSoa c2OldSoa
      [] [] rfl rfl rfl (by simp) (by decide) rfl rfl (by decide) (by decide)

/-- Witness for C10 at concrete zones. -/
theorem C10_cname_guard_zone_wide_witness :
    (ZoneUpdateAction.AddRecord aRecB).applyTo nmA zoneWithCname = zoneWithCname ∧
    (ZoneUpdateAction.AddRecord cnameRecA).applyTo nmA zoneTwoA = zoneTwoA := by
  constructor
  · exact C10_cname_guard_zone_wide.1 nmA zoneWithCname aRecB (by decide)
      ⟨cnameRecA, by simp [zoneWithCname, ZoneT.records], by decide⟩
  · refine C10_cname_guard_zone_wide.2 nmA zoneTwoA cnameRecA (by decide) ?_
    rintro (h | ⟨x, hx, hxc⟩)
    · simp [zoneTwoA, ZoneT.records] at h
    · simp only [zoneTwoA, ZoneT.records] at hx
      rcases List.cons_eq_cons.mp hx with ⟨rfl, habs⟩
      simp at habs

/-- C3 (amended): apex protection of delete actions, with part (3)'s NS
condition stated as the guard the code actually implements: `DeleteRecord` of
an NS payload at the apex is refused exactly when the zone holds at most one
NS record in total (not "when deleting it would drop the last NS record" —
with duplicate NS records the delete proceeds and removes them all).
Parts: (1) `DeleteRecords(apex, None)` keeps exactly the records that are not
owned by the apex or have type SOA/NS; (2) `DeleteRecords(apex, Some T)` is a
no-op for T ∈ \{SOA, NS\} and otherwise removes exactly the (name, T)
matches; (3) `DeleteRecord(apex, data)` is a no-op for SOA data, and for NS
data when the zone holds at most one NS record, and otherwise removes exactly
the (name, type, data) matches. -/
theorem C3_apex_delete_amended :
    (∀ (zn name : DName) (z : ZoneT) (r : Record), beqName name zn = true →
      (r ∈ ((ZoneUpdateAction.DeleteRecords name none).applyTo zn z).records ↔
        r ∈ z.records ∧
          (beqName r.name name = false ∨ r.type_ = TypeT.SOA ∨ r.type_ = TypeT.NS)))
    ∧
    (∀ (zn name : DName) (z : ZoneT) (t : TypeT), beqName name zn = true →
      (t = TypeT.SOA ∨ t = TypeT.NS) →
      (ZoneUpdateAction.DeleteRecords name (some t)).applyTo zn z = z)
    ∧
    (∀ (zn name : DName) (z : ZoneT) (t : TypeT) (r : Record),
      ¬(t = TypeT.SOA ∨ t = TypeT.NS) →
      (r ∈ ((ZoneUpdateAction.DeleteRecords name (some t)).applyTo zn z).records ↔
        r ∈ z.records ∧ (beqName r.name name = false ∨ r.type_ ≠ t)))
    ∧
    (∀ (zn name : DName) (z : ZoneT) (d : TypeData), beqName name zn = true →
      d.dnsType = TypeT.SOA →
      (ZoneUpdateAction.DeleteRecord name d).applyTo zn z = z)
    ∧
    (∀ (zn name : DName) (z : ZoneT) (d : TypeData), beqName name zn = true →
      d.dnsType = TypeT.NS →
      (z.records.filter fun x => decide (x.type_ = TypeT.NS)).length ≤ 1 →
      (ZoneUpdateAction.DeleteRecord name d).applyTo zn z = z)
    ∧
    (∀ (zn name : DName) (z : ZoneT) (d : TypeData) (r : Record),
      ¬(beqName name zn = true ∧
        (d.dnsType = TypeT.SOA ∨ (d.dnsType = TypeT.NS ∧
          (z.records.filter fun x => decide (x.type_ = TypeT.NS)).length ≤ 1))) →
      (r ∈ ((ZoneUpdateAction.DeleteRecord name d).applyTo zn z).records ↔
        r ∈ z.records ∧
          (beqName r.name name = false ∨ r.type_ ≠ d.dnsType ∨ beqData r.data d = false))) := by
  refine ⟨?_, ?_, ?_, ?_, ?_, ?_⟩
  · intro zn name z r hb
    simp only [ZoneUpdateAction.applyTo]
    rw [if_pos hb, ZoneT.withRecords_records]
    simp only [List.mem_filter, Bool.or_eq_true, Bool.not_eq_true', decide_eq_true_eq]
    rw [or_assoc]
  · intro zn name z t hb ht
    simp only [ZoneUpdateAction.applyTo]
    rw [if_pos ⟨hb, ht⟩]
  · intro zn name z t r ht
    simp only [ZoneUpdateAction.applyTo]
    rw [if_neg fun hh => ht hh.2, ZoneT.withRecords_records]
    simp [List.mem_filter, Bool.or_eq_true, Bool.not_eq_true', decide_eq_false_iff_not]
  · intro zn name z d hb hd
    simp only [ZoneUpdateAction.applyTo]
    rw [if_pos ⟨hb, Or.inl hd⟩]
  · intro zn name z d hb hd hcount
    simp only [ZoneUpdateAction.applyTo]
    rw [if_pos ⟨hb, Or.inr ⟨hd, hcount⟩⟩]
  · intro zn name z d r hcond
    simp only [ZoneUpdateAction.applyTo]
    rw [if_neg hcond, ZoneT.withRecords_records]
    simp only [List.mem_filter, Bool.or_eq_true, Bool.not_eq_true', decide_eq_false_iff_not]
    rw [or_assoc]

/-- Counterexample to C3 as stated: at apex `z` the zone holds two identical
NS records; deleting that NS data would drop the last NS record of the zone,
so the claim requires a no-op, but the code's guard only refuses when the zone
holds at most one NS record, and here it removes both, leaving the zone with
no NS record at all. -/
theorem C3_apex_delete_counterexample :
    beqName c3Apex c3Apex = true ∧
    c3NsData.dnsType = TypeT.NS ∧
    (c3Zone.records.filter fun x => decide (x.type_ = TypeT.NS)).length = 2 ∧
    ((ZoneUpdateAction.DeleteRecord c3Apex c3NsData).applyTo c3Apex c3Zone).records = [] ∧
    ((ZoneUpdateAction.DeleteRecord c3Apex c3NsData).applyTo c3Apex c3Zone).records ≠
      c3Zone.records := by
  refine ⟨by decide, rfl, by decide, by decide, by decide⟩

/-- Witness for C3 (amended) at a concrete zone with a single apex NS record:
deleting the NS data is refused, deleting the SOA RRset at the apex is
refused, and a delete-all at the apex keeps the NS record. -/
theorem C3_apex_delete_amended_witness :
    (ZoneUpdateAction.DeleteRecord c3Apex c3NsData).applyTo c3Apex c3ZoneOneNs = c3ZoneOneNs ∧
    (ZoneUpdateAction.DeleteRecords c3Apex (some TypeT.SOA)).applyTo c3Apex c3ZoneOneNs =
      c3ZoneOneNs ∧
    c3NsRec ∈ ((ZoneUpdateAction.DeleteRecords c3Apex none).applyTo c3Apex c3ZoneOneNs).records := by
  refine ⟨?_, ?_, ?_⟩
  · exact C3_apex_delete_amended.2.2.2.2.1 c3Apex c3Apex c3ZoneOneNs c3NsData
      (by decide) (by decide) (by decide)
  · exact C3_apex_delete_amended.2.1 c3Apex c3Apex c3ZoneOneNs TypeT.SOA (by decide) (Or.inl rfl)
  · exact (C3_apex_delete_amended.1 c3Apex c3Apex c3ZoneOneNs c3NsRec (by decide)).mpr
      ⟨by decide, Or.inr (Or.inr rfl)⟩

theorem flags_decode (q o A T D R res c : Nat) (hq : q ≤ 1) (ho : o < 16)
    (hA : A ≤ 1) (hT : T ≤ 1) (hD : D ≤ 1) (hR : R ≤ 1) (hres : res < 8) (hc : c < 16) :
    (q * 32768 + o * 2048 + A * 1024 + T * 512 + D * 256 + R * 128 + res * 16 + c) < 65536 ∧
    (q * 32768 + o * 2048 + A * 1024 + T * 512 + D * 256 + R * 128 + res * 16 + c) / 32768 % 2 = q ∧
    (q * 32768 + o * 2048 + A * 1024 + T * 512 + D * 256 + R * 128 + res * 16 + c) / 2048 % 256 % 16 = o ∧
    (q * 32768 + o * 2048 + A * 1024 + T * 512 + D * 256 + R * 128 + res * 16 + c) / 1024 % 2 = A ∧
    (q * 32768 + o * 2048 + A * 1024 + T * 512 + D * 256 + R * 128 + res * 16 + c) / 512 % 2 = T ∧
    (q * 32768 + o * 2048 + A * 1024 + T * 512 + D * 256 + R * 128 + res * 16 + c) / 256 % 2 = D ∧
    (q * 32768 + o * 2048 + A * 1024 + T * 512 + D * 256 + R * 128 + res * 16 + c) / 128 % 2 = R ∧
    (q * 32768 + o * 2048 + A * 1024 + T * 512 + D * 256 + R * 128 + res * 16 + c) / 16 % 8 % 256 = res ∧
    (q * 32768 + o * 2048 + A * 1024 + T * 512 + D * 256 + R * 128 + res * 16 + c) % 16 % 256 = c := by
  omega

theorem headerParse_explicit (x0 x1 x2 x3 x4 x5 x6 x7 x8 x9 x10 x11 : Nat) :
    headerParse [x0, x1, x2, x3, x4, x5, x6, x7, x8, x9, x10, x11] =
      { id := x0 * 256 + x1
        queryResponse :=
          if (x2 * 256 + x3) / 32768 % 2 = 0 then .Query else .Response
        opcode := opcodeOfNat ((x2 * 256 + x3) / 2048 % 256 % 16)
        isAuthoritative := decide ((x2 * 256 + x3) / 1024 % 2 ≠ 0)
        isTruncated := decide ((x2 * 256 + x3) / 512 % 2 ≠ 0)
        recursionDesired := decide ((x2 * 256 + x3) / 256 % 2 ≠ 0)
        recursionAvailable := decide ((x2 * 256 + x3) / 128 % 2 ≠ 0)
        reserved := (x2 * 256 + x3) / 16 % 8 % 256
        responseCode := rcodeOfNat ((x2 * 256 + x3) % 16 % 256)
        questionCount := x4 * 256 + x5
        answerCount := x6 * 256 + x7
        nameserverCount := x8 * 256 + x9
        additionalRecordCount := x10 * 256 + x11 } := rfl

/-- C8 (amended): for every header whose opcode and response code lie within
the documented enumerations (`Header::validate` holds) **and whose `reserved`
field fits the three reserved flag bits (`reserved < 8`)**,
`Header::parse(h.to_bytes()) = h`.  The bound hypotheses on `id` and the four
counts state the `u16` type of those fields in the source. -/
theorem C8_header_roundtrip_amended (h : HeaderT)
    (hv : headerValidate h = true)
    (hid : h.id < 65536) (hres : h.reserved < 8)
    (hqc : h.questionCount < 65536) (hac : h.answerCount < 65536)
    (hnc : h.nameserverCount < 65536) (harc : h.additionalRecordCount < 65536) :
    headerParse (headerToBytes h) = h := by
  obtain ⟨idv, qr, op, aa, tc, rd, ra, res, rc, qc, ac, nc, arc⟩ := h
  simp only at hid hres hqc hac hnc harc
  have hvalid : opcodeOfNat op.toNat = op ∧ rcodeOfNat rc.toNat = rc ∧
      op.toNat < 16 ∧ rc.toNat < 16 := by
    cases op <;> cases rc <;> first | decide | (simp [headerValidate] at hv)
  have hb2 : ∀ b : Bool, b2n b ≤ 1 := by intro b; cases b <;> simp [b2n]
  have hqb : (if qr = QueryResponseT.Response then 1 else 0) ≤ 1 := by split <;> omega
  have hflags : headerFlags (HeaderT.mk idv qr op aa tc rd ra res rc qc ac nc arc) =
      (if qr = QueryResponseT.Response then 1 else 0) * 32768 + op.toNat * 2048 +
        b2n aa * 1024 + b2n tc * 512 + b2n rd * 256 + b2n ra * 128 + res * 16 + rc.toNat := by
    have h1 := hvalid.2.2.1
    have h2 := hvalid.2.2.2
    simp only [headerFlags]
    omega
  obtain ⟨hlt, e15, e11, e10, e9, e8, e7, e4, e0⟩ :=
    flags_decode (if qr = QueryResponseT.Response then 1 else 0) op.toNat
      (b2n aa) (b2n tc) (b2n rd) (b2n ra) res rc.toNat
      hqb hvalid.2.2.1 (hb2 aa) (hb2 tc) (hb2 rd) (hb2 ra) hres hvalid.2.2.2
  have hbytes : headerToBytes (HeaderT.mk idv qr op aa tc rd ra res rc qc ac nc arc) =
      [idv / 256 % 256, idv % 256,
        headerFlags (HeaderT.mk idv qr op aa tc rd ra res rc qc ac nc arc) / 256 % 256,
        headerFlags (HeaderT.mk idv qr op aa tc rd ra res rc qc ac nc arc) % 256,
        qc / 256 % 256, qc % 256, ac / 256 % 256, ac % 256,
        nc / 256 % 256, nc % 256, arc / 256 % 256, arc % 256] := rfl
  rw [hbytes, hflags, headerParse_explicit]
  have hFr : ((if qr = QueryResponseT.Response then 1 else 0) * 32768 + op.toNat * 2048 +
        b2n aa * 1024 + b2n tc * 512 + b2n rd * 256 + b2n ra * 128 + res * 16 + rc.toNat)
          / 256 % 256 * 256 +
      ((if qr = QueryResponseT.Response then 1 else 0) * 32768 + op.toNat * 2048 +
        b2n aa * 1024 + b2n tc * 512 + b2n rd * 256 + b2n ra * 128 + res * 16 + rc.toNat) % 256 =
      (if qr = QueryResponseT.Response then 1 else 0) * 32768 + op.toNat * 2048 +
        b2n aa * 1024 + b2n tc * 512 + b2n rd * 256 + b2n ra * 128 + res * 16 + rc.toNat := by
    omega
  rw [hFr]
  simp only [HeaderT.mk.injEq]
  refine ⟨by omega, ?_, ?_, ?_, ?_, ?_, ?_, ?_, ?_, by omega, by omega, by omega, by omega⟩
  · rw [e15]
    cases qr <;> simp
  · rw [e11]
    exact hvalid.1
  · rw [e10]
    cases aa <;> simp [b2n]
  · rw [e9]
    cases tc <;> simp [b2n]
  · rw [e8]
    cases rd <;> simp [b2n]
  · rw [e7]
    cases ra <;> simp [b2n]
  · rw [e4]
  · rw [e0]
    exact hvalid.2.1

/-- Counterexample to C8 as stated: the header with `reserved = 8` passes
`Header::validate` (which only inspects opcode and response code), but only
three reserved bits are serialized, so the round trip returns `reserved = 0`
and the parsed header differs from the original. -/
theorem C8_header_roundtrip_counterexample :
    headerValidate c8BadHeader = true ∧
    headerParse (headerToBytes c8BadHeader) ≠ c8BadHeader := by decide

/-- Witness for C8 (amended) at a concrete valid header. -/
theorem C8_header_roundtrip_amended_witness :
    headerParse (headerToBytes c8GoodHeader) = c8GoodHeader :=
  C8_header_roundtrip_amended c8GoodHeader (by decide) (by decide) (by decide)
    (by decide) (by decide) (by decide) (by decide)

/-- C9: name decompression pointer discipline — (1) every compression pointer
must target an offset strictly earlier than the offset where the current name
read started and within the length bound, otherwise `read_name` returns
`CorruptName` (the hypothesis `startIndex ≤ maxLength` holds at every reach of
the loop, since the loop has just read a byte below `maxLength` at or after
`startIndex`); (2) the number of indirections followed for one name is capped
at 32: with the budget exhausted, the read can only succeed on an immediate
terminator byte; (3) `read_name` enters the loop with the full budget of 32
and with `startIndex` equal to the cursor. -/
theorem C9_read_name_pointer_discipline :
    (∀ (p : List Nat) (m s i : Nat) (cont : Option Nat) (acc : List (List Nat)) (budget : Nat),
      i + 2 ≤ m → s ≤ m → p.getD i 0 / 64 = 3 →
      ¬((p.getD i 0 * 256 + p.getD (i + 1) 0) % 16384 < s ∧
        (p.getD i 0 * 256 + p.getD (i + 1) 0) % 16384 < m) →
      readNameGo p m s i cont acc budget = .error .CorruptName)
    ∧
    (∀ (p : List Nat) (m s i : Nat) (cont : Option Nat) (acc : List (List Nat))
        (res : List (List Nat) × Nat),
      readNameGo p m s i cont acc 0 = .ok res → p.getD i 0 = 0)
    ∧
    (∀ (p : List Nat) (m i : Nat), read_name p m i = readNameGo p m i i none [] 32) := by
  refine ⟨?_, ?_, fun p m i => rfl⟩
  · intro p m s i cont acc budget h2 hsm hptr hbad
    rw [readNameGo]
    rw [if_neg (show ¬(i + 1 > m) by omega)]
    rw [if_pos hptr, if_neg (show ¬(i + 2 > m) by omega)]
    rw [if_pos (show (p.getD i 0 * 256 + p.getD (i + 1) 0) % 16384 ≥ s ∨
      (p.getD i 0 * 256 + p.getD (i + 1) 0) % 16384 > m by omega)]
  · intro p m s i cont acc res hok
    by_cases h1 : i + 1 > m
    · rw [readNameGo, if_pos h1] at hok
      cases hok
    · by_cases h3 : p.getD i 0 / 64 = 3
      · by_cases h2 : i + 2 > m
        · rw [readNameGo, if_neg h1, if_pos h3, if_pos h2] at hok
          cases hok
        · by_cases hb : (p.getD i 0 * 256 + p.getD (i + 1) 0) % 16384 ≥ s ∨
              (p.getD i 0 * 256 + p.getD (i + 1) 0) % 16384 > m
          · rw [readNameGo, if_neg h1, if_pos h3, if_neg h2, if_pos hb] at hok
            cases hok
          · rw [readNameGo, if_neg h1, if_pos h3, if_neg h2, if_neg hb] at hok
            cases hok
      · by_cases h0 : p.getD i 0 = 0
        · exact h0
        · by_cases h4 : p.getD i 0 / 64 = 0
          · by_cases h5 : i + 1 + p.getD i 0 > m
            · rw [readNameGo, if_neg h1, if_neg h3, if_neg h0, if_pos h4, if_pos h5] at hok
              cases hok
            · rw [readNameGo, if_neg h1, if_neg h3, if_neg h0, if_pos h4, if_neg h5] at hok
              cases hok
          · rw [readNameGo, if_neg h1, if_neg h3, if_neg h0, if_neg h4] at hok
            cases hok

/-- Witness for C9 at concrete packets: a pointer at offset 0 targeting offset
12 (not strictly earlier than the start of the read) yields `CorruptName`,
and with an exhausted budget a successful read implies the current byte is the
zero terminator. -/
theorem C9_read_name_pointer_discipline_witness :
    read_name [192, 12] 2 0 = .error .CorruptName ∧
    ([0] : List Nat).getD 0 0 = 0 := by
  constructor
  · rw [C9_read_name_pointer_discipline.2.2]
    exact C9_read_name_pointer_discipline.1 [192, 12] 2 0 0 none [] 32
      (by decide) (by decide) (by decide) (by decide)
  · exact C9_read_name_pointer_discipline.2.1 [0] 1 0 0 none [] ([], 1) rfl

theorem eqIC_refl (a : List Char) : eqIC a a = true := by
  simp [eqIC]

theorem eqIC_eq_true_iff {a b : List Char} :
    eqIC a b = true ↔ a.map lowerC = b.map lowerC := by
  simp [eqIC]

theorem lowerC_dot : lowerC '.' = '.' := by decide

theorem lowerC_eq_dot {c : Char} (h : lowerC c = '.') : c = '.' := by
  unfold lowerC at h
  split at h
  · exfalso
    rename_i hr
    have hv : (c.toNat + 32).isValidChar := Or.inl (by omega)
    have h2 := congrArg Char.toNat h
    have h3 : (Char.ofNat (c.toNat + 32)).toNat = c.toNat + 32 := by
      simp only [Char.ofNat, hv, dif_pos]
      rfl
    rw [h3] at h2
    have h4 : ('.' : Char).toNat = 46 := rfl
    omega
  · exact h

theorem not_mem_map_lowerC_dot {l : Label} (hd : '.' ∉ l) : '.' ∉ l.map lowerC := by
  intro hmem
  obtain ⟨c, hc, hlc⟩ := List.mem_map.mp hmem
  exact hd (lowerC_eq_dot hlc ▸ hc)

theorem WfName_lower {n : DName} (h : WfName n) : WfName (lowerName n) := by
  intro l hl
  obtain ⟨l0, hl0, rfl⟩ := List.mem_map.mp hl
  obtain ⟨hne, hdot⟩ := h l0 hl0
  exact ⟨by simpa using hne, not_mem_map_lowerC_dot hdot⟩

theorem map_lowerC_joinDots (n : DName) :
    (joinDots n).map lowerC = joinDots (lowerName n) := by
  induction n with
  | nil => rfl
  | cons l ls ih =>
    cases ls with
    | nil => rfl
    | cons m ms =>
      show (l ++ '.' :: joinDots (m :: ms)).map lowerC =
        l.map lowerC ++ '.' :: joinDots (lowerName (m :: ms))
      rw [List.map_append, List.map_cons, lowerC_dot, ih]

theorem append_dot_inj : ∀ {a1 a2 t1 t2 : List Char}, '.' ∉ a1 → '.' ∉ a2 →
    a1 ++ '.' :: t1 = a2 ++ '.' :: t2 → a1 = a2 ∧ t1 = t2 := by
  intro a1
  induction a1 with
  | nil =>
    intro a2 t1 t2 h1 h2 h
    cases a2 with
    | nil => simpa using h
    | cons d ds =>
      exfalso
      simp only [List.nil_append, List.cons_append, List.cons.injEq] at h
      exact h2 (h.1 ▸ List.mem_cons_self d ds)
  | cons c cs ih =>
    intro a2 t1 t2 h1 h2 h
    cases a2 with
    | nil =>
      exfalso
      simp only [List.nil_append, List.cons_append, List.cons.injEq] at h
      exact h1 (h.1 ▸ List.mem_cons_self c cs)
    | cons d ds =>
      simp only [List.cons_append, List.cons.injEq] at h
      obtain ⟨rfl, h⟩ := h
      obtain ⟨ha, ht⟩ :=
        ih (fun hm => h1 (List.mem_cons_of_mem _ hm)) (fun hm => h2 (List.mem_cons_of_mem _ hm)) h
      exact ⟨by rw [ha], ht⟩

theorem joinDots_inj : ∀ {L1 L2 : DName}, WfName L1 → WfName L2 →
    joinDots L1 = joinDots L2 → L1 = L2 := by
  intro L1
  induction L1 with
  | nil =>
    intro L2 w1 w2 h
    cases L2 with
    | nil => rfl
    | cons y ys =>
      exfalso
      cases ys with
      | nil =>
        simp only [joinDots] at h
        exact (w2 y (List.mem_cons_self _ _)).1 h.symm
      | cons m ms =>
        simp only [joinDots] at h
        have := congrArg List.length h
        simp at this
        omega
  | cons x xs ih =>
    intro L2 w1 w2 h
    cases L2 with
    | nil =>
      exfalso
      cases xs with
      | nil =>
        simp only [joinDots] at h
        exact (w1 x (List.mem_cons_self _ _)).1 h
      | cons m ms =>
        simp only [joinDots] at h
        have := congrArg List.length h
        simp at this
    | cons y ys =>
      cases xs with
      | nil =>
        cases ys with
        | nil =>
          simp only [joinDots] at h
          rw [h]
        | cons m ms =>
          exfalso
          simp only [joinDots] at h
          have hdot : '.' ∈ x := by
            rw [h]
            exact List.mem_append_right _ (List.mem_cons_self _ _)
          exact (w1 x (List.mem_cons_self _ _)).2 hdot
      | cons x2 xs2 =>
        cases ys with
        | nil =>
          exfalso
          simp only [joinDots] at h
          have hdot : '.' ∈ y := by
            rw [← h]
            exact List.mem_append_right _ (List.mem_cons_self _ _)
          exact (w2 y (List.mem_cons_self _ _)).2 hdot
        | cons m ms =>
          simp only [joinDots] at h
          obtain ⟨rfl, ht⟩ := append_dot_inj (w1 x (List.mem_cons_self _ _)).2
            (w2 y (List.mem_cons_self _ _)).2 h
          have hrest := ih (fun l hl => w1 l (List.mem_cons_of_mem _ hl))
            (fun l hl => w2 l (List.mem_cons_of_mem _ hl)) ht
          rw [hrest]

theorem eqIC_joinDots_iff {a b : DName} (wa : WfName a) (wb : WfName b) :
    eqIC (joinDots a) (joinDots b) = true ↔ lowerName a = lowerName b := by
  rw [eqIC_eq_true_iff, map_lowerC_joinDots, map_lowerC_joinDots]
  constructor
  · exact fun h => joinDots_inj (WfName_lower wa) (WfName_lower wb) h
  · intro h
    rw [h]

theorem zip_all_append_left {α β : Type} (f : α × β → Bool) :
    ∀ (x ext : List α) (y : List β), y.length ≤ x.length →
      ((x ++ ext).zip y).all f = (x.zip y).all f := by
  intro x
  induction x with
  | nil =>
    intro ext y h
    cases y with
    | nil => simp
    | cons c ys => simp at h
  | cons d xs ih =>
    intro ext y h
    cases y with
    | nil => simp
    | cons c ys =>
      simp only [List.cons_append, List.zip_cons_cons, List.all_cons]
      rw [ih ext ys (by simpa using h)]

theorem zip_all_reverse {α β : Type} (f : α × β → Bool) :
    ∀ (x : List α) (y : List β), x.length = y.length →
      (x.reverse.zip y.reverse).all f = (x.zip y).all f := by
  intro x
  induction x with
  | nil =>
    intro y h
    cases y with
    | nil => rfl
    | cons b ys => simp at h
  | cons a xs ih =>
    intro y h
    cases y with
    | nil => simp at h
    | cons b ys =>
      have hlen : xs.length = ys.length := by simpa using h
      simp only [List.reverse_cons]
      rw [List.zip_append (by simp [hlen])]
      simp only [List.all_append, List.zip_cons_cons, List.zip_nil_right, List.all_cons,
        List.all_nil, Bool.and_true, List.zip_cons_cons]
      rw [ih ys hlen, Bool.and_comm]

theorem zip_all_eqIC_iff : ∀ {y x : List Label}, y.length ≤ x.length →
    (((x.zip y).all fun pr => eqIC pr.1 pr.2) = true ↔
      (lowerName x).take y.length = lowerName y) := by
  intro y
  induction y with
  | nil =>
    intro x h
    simp [lowerName]
  | cons c ys ih =>
    intro x h
    cases x with
    | nil => simp at h
    | cons d xs =>
      simp only [List.zip_cons_cons, List.all_cons, Bool.and_eq_true, lowerName,
        List.map_cons, List.length_cons, List.take_succ_cons, List.cons.injEq]
      have hih := ih (x := xs) (by simpa using h)
      simp only [lowerName] at hih
      exact and_congr eqIC_eq_true_iff hih

theorem zip_all_wild_of_lower : ∀ (x y : List Label), lowerName x = lowerName y →
    ((x.zip y).all fun pr => wildMatch pr.1 pr.2) = true := by
  intro x
  induction x with
  | nil =>
    intro y h
    cases y with
    | nil => rfl
    | cons b ys => simp [lowerName] at h
  | cons a xs ih =>
    intro y h
    cases y with
    | nil => simp [lowerName] at h
    | cons b ys =>
      simp only [lowerName, List.map_cons, List.cons.injEq] at h
      simp only [List.zip_cons_cons, List.all_cons, Bool.and_eq_true]
      constructor
      · simp [wildMatch, eqIC, h.1]
      · exact ih ys (by simpa [lowerName] using h.2)

theorem endsWith_iff {a b : DName} (wa : WfName a) (wb : WfName b) :
    endsWith a b = true ↔ lowerName b <:+ lowerName a := by
  unfold endsWith
  by_cases he : eqIC (joinDots a) (joinDots b) = true
  · rw [if_pos he]
    simp only [true_iff]
    rw [(eqIC_joinDots_iff wa wb).mp he]
  · rw [if_neg he]
    by_cases hl : a.length < b.length
    · rw [if_pos hl]
      simp only [Bool.false_eq_true, false_iff]
      intro hs
      have hlen := hs.length_le
      simp only [lowerName, List.length_map] at hlen
      omega
    · rw [if_neg hl]
      have hrev : b.reverse.length ≤ a.reverse.length := by
        simpa using Nat.le_of_not_lt hl
      rw [zip_all_eqIC_iff hrev]
      have hca : lowerName a.reverse = (lowerName a).reverse := List.map_reverse _ _
      have hcb : lowerName b.reverse = (lowerName b).reverse := List.map_reverse _ _
      rw [hca, hcb, List.length_reverse]
      rw [← List.reverse_prefix, List.prefix_iff_eq_take]
      have hlb : (lowerName b).reverse.length = b.length := by
        simp [lowerName]
      rw [hlb]
      exact eq_comm

theorem WfName_cons_dstar {rest : DName} (wr : WfName rest) :
    WfName (['*', '*'] :: rest) := by
  intro l hl
  rcases List.mem_cons.mp hl with rfl | hl
  · exact ⟨by decide, by decide⟩
  · exact wr l hl

theorem WfName_cons_plus {rest : DName} (wr : WfName rest) :
    WfName (['*', '+'] :: rest) := by
  intro l hl
  rcases List.mem_cons.mp hl with rfl | hl
  · exact ⟨by decide, by decide⟩
  · exact wr l hl

theorem WfName_append {a b : DName} (wa : WfName a) (wb : WfName b) :
    WfName (a ++ b) := by
  intro l hl
  rcases List.mem_append.mp hl with hl | hl
  · exact wa l hl
  · exact wb l hl

theorem containsCore_dstar (rest n : DName) :
    containsCore (['*', '*'] :: rest) n =
      if n.length < (['*', '*'] :: rest).length - 1 then false
      else (n.reverse.zip rest.reverse).all fun pr => wildMatch pr.1 pr.2 := rfl

theorem containsCore_plus (rest n : DName) :
    containsCore (['*', '+'] :: rest) n =
      if n.length < (['*', '+'] :: rest).length then false
      else (n.reverse.zip rest.reverse).all fun pr => wildMatch pr.1 pr.2 := rfl

theorem containsCore_other {p0 : Label} (rest n : DName)
    (h1 : ¬p0 = ['*', '*']) (h2 : ¬p0 = ['*', '+']) :
    containsCore (p0 :: rest) n = forwardContains (p0 :: rest) n := by
  simp only [containsCore]
  rw [if_neg h1, if_neg h2]

theorem contains_dstar_iff (rest n : DName) (wr : WfName rest) (wn : WfName n) :
    containsName (['*', '*'] :: rest) n = true ↔
      rest.length ≤ n.length ∧
        ((n.reverse.zip rest.reverse).all fun pr => wildMatch pr.1 pr.2) = true := by
  constructor
  · intro hc
    unfold containsName at hc
    by_cases he : eqIC (joinDots (['*', '*'] :: rest)) (joinDots n) = true
    · have hlow := (eqIC_joinDots_iff (WfName_cons_dstar wr) wn).mp he
      cases n with
      | nil => simp [lowerName] at hlow
      | cons n0 n1 =>
        simp only [lowerName, List.map_cons, List.cons.injEq] at hlow
        have hlen : n1.length = rest.length := by
          have := congrArg List.length hlow.2
          simpa using this.symm
        refine ⟨by simp only [List.length_cons]; omega, ?_⟩
        rw [List.reverse_cons, zip_all_append_left _ _ _ _ (by simp [hlen]),
          zip_all_reverse _ _ _ hlen]
        exact zip_all_wild_of_lower n1 rest (by simpa [lowerName] using hlow.2.symm)
    · rw [if_neg he, containsCore_dstar] at hc
      by_cases hl : n.length < (['*', '*'] :: rest).length - 1
      · rw [if_pos hl] at hc
        cases hc
      · rw [if_neg hl] at hc
        simp only [List.length_cons] at hl
        exact ⟨by omega, hc⟩
  · intro h
    obtain ⟨hle, hall⟩ := h
    unfold containsName
    by_cases he : eqIC (joinDots (['*', '*'] :: rest)) (joinDots n) = true
    · rw [if_pos he]
    · rw [if_neg he, containsCore_dstar,
        if_neg (by simp only [List.length_cons]; omega)]
      exact hall

theorem contains_plus_iff (rest n : DName) (wr : WfName rest) (wn : WfName n) :
    containsName (['*', '+'] :: rest) n = true ↔
      rest.length + 1 ≤ n.length ∧
        ((n.reverse.zip rest.reverse).all fun pr => wildMatch pr.1 pr.2) = true := by
  constructor
  · intro hc
    unfold containsName at hc
    by_cases he : eqIC (joinDots (['*', '+'] :: rest)) (joinDots n) = true
    · have hlow := (eqIC_joinDots_iff (WfName_cons_plus wr) wn).mp he
      cases n with
      | nil => simp [lowerName] at hlow
      | cons n0 n1 =>
        simp only [lowerName, List.map_cons, List.cons.injEq] at hlow
        have hlen : n1.length = rest.length := by
          have := congrArg List.length hlow.2
          simpa using this.symm
        refine ⟨by simp only [List.length_cons]; omega, ?_⟩
        rw [List.reverse_cons, zip_all_append_left _ _ _ _ (by simp [hlen]),
          zip_all_reverse _ _ _ hlen]
        exact zip_all_wild_of_lower n1 rest (by simpa [lowerName] using hlow.2.symm)
    · rw [if_neg he, containsCore_plus] at hc
      by_cases hl : n.length < (['*', '+'] :: rest).length
      · rw [if_pos hl] at hc
        cases hc
      · rw [if_neg hl] at hc
        simp only [List.length_cons] at hl
        exact ⟨by omega, hc⟩
  · intro h
    obtain ⟨hle, hall⟩ := h
    unfold containsName
    by_cases he : eqIC (joinDots (['*', '+'] :: rest)) (joinDots n) = true
    · rw [if_pos he]
    · rw [if_neg he, containsCore_plus,
        if_neg (by simp only [List.length_cons]; omega)]
      exact hall

/-- C7: name matching laws — (1) `n.ends_with(n)` always holds; (2)
`ends_with` is transitive on well-formed names; (3) a pattern whose leading
label is not `**` and not `*+` (in particular a pattern with a leading
literal `*`) only matches names with exactly the same label count, so `*`
matches exactly one label; (4)/(5) a leading `**` matches a tail of zero or
more labels before the remaining pattern labels; (6)/(7)/(8) a leading `*+`
matches a tail of one or more labels and never a tail of zero labels.
Well-formedness (non-empty, dot-free labels) is the invariant the source
`Name` API maintains (spec invariant (a)). -/
theorem C7_name_match_laws :
    (∀ n : DName, endsWith n n = true)
    ∧
    (∀ a b c : DName, WfName a → WfName b → WfName c →
      endsWith a b = true → endsWith b c = true → endsWith a c = true)
    ∧
    (∀ pat n : DName, WfName pat → WfName n →
      pat.head? ≠ some ['*', '*'] → pat.head? ≠ some ['*', '+'] →
      containsName pat n = true → pat.length = n.length)
    ∧
    (∀ rest n : DName, WfName rest → WfName n →
      (containsName (['*', '*'] :: rest) n = true ↔
        rest.length ≤ n.length ∧
          ((n.reverse.zip rest.reverse).all fun pr => wildMatch pr.1 pr.2) = true))
    ∧
    (∀ rest tail m : DName, WfName rest → WfName tail → WfName m →
      m.length = rest.length →
      ((m.zip rest).all fun pr => wildMatch pr.1 pr.2) = true →
      containsName (['*', '*'] :: rest) (tail ++ m) = true)
    ∧
    (∀ rest n : DName, WfName rest → WfName n →
      (containsName (['*', '+'] :: rest) n = true ↔
        rest.length + 1 ≤ n.length ∧
          ((n.reverse.zip rest.reverse).all fun pr => wildMatch pr.1 pr.2) = true))
    ∧
    (∀ rest tail m : DName, WfName rest → WfName tail → WfName m → tail ≠ [] →
      m.length = rest.length →
      ((m.zip rest).all fun pr => wildMatch pr.1 pr.2) = true →
      containsName (['*', '+'] :: rest) (tail ++ m) = true)
    ∧
    (∀ rest m : DName, WfName rest → WfName m → m.length = rest.length →
      containsName (['*', '+'] :: rest) m = false) := by
  have htailzip : ∀ (rest tail m : DName), m.length = rest.length →
      ((m.zip rest).all fun pr => wildMatch pr.1 pr.2) = true →
      (((tail ++ m).reverse.zip rest.reverse).all fun pr => wildMatch pr.1 pr.2) = true := by
    intro rest tail m hlen hall
    rw [List.reverse_append, zip_all_append_left _ _ _ _ (by simp [hlen]),
      zip_all_reverse _ _ _ hlen]
    exact hall
  refine ⟨?_, ?_, ?_, ?_, ?_, ?_, ?_, ?_⟩
  · intro n
    unfold endsWith
    rw [if_pos (eqIC_refl _)]
  · intro a b c wa wb wc h1 h2
    rw [endsWith_iff wa wc]
    exact ((endsWith_iff wb wc).mp h2).trans ((endsWith_iff wa wb).mp h1)
  · intro pat n wp wn h1 h2 hc
    unfold containsName at hc
    by_cases he : eqIC (joinDots pat) (joinDots n) = true
    · have := congrArg List.length ((eqIC_joinDots_iff wp wn).mp he)
      simpa [lowerName] using this
    · rw [if_neg he] at hc
      cases pat with
      | nil =>
        rw [show containsCore [] n = forwardContains [] n from rfl] at hc
        unfold forwardContains at hc
        by_cases hl : n.length ≠ ([] : DName).length
        · rw [if_pos hl] at hc
          cases hc
        · simp only [List.length_nil] at hl ⊢
          omega
      | cons p0 rest =>
        have hp1 : ¬p0 = ['*', '*'] := fun hh => h1 (by simp [hh])
        have hp2 : ¬p0 = ['*', '+'] := fun hh => h2 (by simp [hh])
        rw [containsCore_other rest n hp1 hp2] at hc
        unfold forwardContains at hc
        by_cases hl : n.length ≠ (p0 :: rest).length
        · rw [if_pos hl] at hc
          cases hc
        · omega
  · exact fun rest n wr wn => contains_dstar_iff rest n wr wn
  · intro rest tail m wr wt wm hlen hall
    refine (contains_dstar_iff rest (tail ++ m) wr (WfName_append wt wm)).mpr ?_
    refine ⟨by simp only [List.length_append]; omega, htailzip rest tail m hlen hall⟩
  · exact fun rest n wr wn => contains_plus_iff rest n wr wn
  · intro rest tail m wr wt wm htail hlen hall
    refine (contains_plus_iff rest (tail ++ m) wr (WfName_append wt wm)).mpr ?_
    have hpos : 0 < tail.length := List.length_pos.mpr htail
    refine ⟨by simp only [List.length_append]; omega, htailzip rest tail m hlen hall⟩
  · intro rest m wr wm hlen
    cases hcc : containsName (['*', '+'] :: rest) m with
    | false => rfl
    | true =>
      have := ((contains_plus_iff rest m wr wm).mp hcc).1
      omega

/-- Witness for C7 at concrete names: transitivity at
west.test.com / test.com / com, the `**` equivalence at pattern
`**.test.com` against `com`-rooted names, the positive `**` and `*+` tail
forms, and the zero-tail refusal of `*+`. -/
theorem C7_name_match_laws_witness :
    endsWith nWestTestCom nCom = true ∧
    containsName [['*', '*'], ['t', 'e', 's', 't'], ['c', 'o', 'm']] nTestCom = true ∧
    containsName [['*', '+'], ['c', 'o', 'm']] nTestCom = true ∧
    containsName [['*', '+'], ['t', 'e', 's', 't'], ['c', 'o', 'm']] nTestCom = false := by
  refine ⟨?_, ?_, ?_, ?_⟩
  · exact C7_name_match_laws.2.1 nWestTestCom nTestCom nCom (by decide) (by decide) (by decide)
      (by decide) (by decide)
  · exact C7_name_match_laws.2.2.2.2.1 [['t', 'e', 's', 't'], ['c', 'o', 'm']] [] nTestCom
      (by decide) (by decide) (by decide) (by decide) (by decide)
  · exact C7_name_match_laws.2.2.2.2.2.2.1 [['c', 'o', 'm']] [['t', 'e', 's', 't']] nCom
      (by decide) (by decide) (by decide) (by decide) (by decide) (by decide)
  · exact C7_name_match_laws.2.2.2.2.2.2.2 [['t', 'e', 's', 't'], ['c', 'o', 'm']] nTestCom
      (by decide) (by decide) (by decide)

/-- C4: TSIG validation failures map to the specified error codes and an
unsigned response.  (a) For every inbound packet that reaches the TSIG phase
(query-shaped header: QR=Query, rcode=NoError, not truncated) and carries a
TSIG record, if validation fails with error `e` the response's outer rcode is
`NotAuth`, the replacement TSIG record is the only appended record, and
nothing is signed (`TsigInfo` empty) or delivered; (b) the replacement record
carries an empty MAC and maps unknown algorithm ↦ BadKey, missing key ↦
BadKey, MAC mismatch ↦ BadSig, clock skew ↦ BadTime; (c) `validate`
classifies: a failed key lookup is `MissingKey`, `|now − time_signed| >
fudge` is `TimeMismatch`, an unsupported algorithm is `UnknownAlgorithm`, and
a computed MAC that differs from the one in the record is `NoAuth`. -/
theorem C4_tsig_failure_handling :
    (∀ (now : Int) (hmac : List Char → List Nat → List Nat → List Nat)
        (qf : ZoneT → PacketT → PacketT → Option PacketT)
        (af : ZoneT → DName → PacketT → List PacketT)
        (isTcp : Bool) (zone : ZoneT) (packet : PacketT)
        (name : DName) (tsig : TsigDataT) (slice : List Nat) (sendOk : Bool) (e : TsigError),
      packet.header.queryResponse = QueryResponseT.Query →
      packet.header.responseCode = ResponseCodeT.NoError →
      packet.header.isTruncated = false →
      validate (lookupKey zone.tsigKeys) now hmac
        (headerToBytes { packet.header with
          additionalRecordCount := packet.header.additionalRecordCount - 1 } ++ slice.drop 12)
        name tsig zone.allowMd5Tsig TsigMode.Normal none = .error e →
      respond now hmac qf af isTcp zone packet (some (name, tsig, slice)) sendOk =
        some ([setRcode { freshResponse packet with
          additional_records := [TsigError.toRecord e name tsig] } ResponseCodeT.NotAuth],
          none, none))
    ∧
    (∀ (e : TsigError) (name : DName) (tsig : TsigDataT),
      ∃ td, (TsigError.toRecord e name tsig).data = TypeData.TSIG td ∧ td.mac = [] ∧
        (e = TsigError.UnknownAlgorithm → td.error = TsigRC.BadKey) ∧
        (e = TsigError.MissingKey → td.error = TsigRC.BadKey) ∧
        (e = TsigError.NoAuth → td.error = TsigRC.BadSig) ∧
        (e = TsigError.TimeMismatch → td.error = TsigRC.BadTime))
    ∧
    (∀ (kl : List Char → Option (List Nat)) (now : Int)
        (hmac : List Char → List Nat → List Nat → List Nat) (data : List Nat)
        (name : DName) (tsig : TsigDataT) (am : Bool) (mode : TsigMode)
        (rm : Option (List Nat)),
      kl (joinDots name) = none →
      validate kl now hmac data name tsig am mode rm = .error .MissingKey)
    ∧
    (∀ (kl : List Char → Option (List Nat)) (now : Int)
        (hmac : List Char → List Nat → List Nat → List Nat) (data : List Nat)
        (name : DName) (tsig : TsigDataT) (am : Bool) (mode : TsigMode)
        (rm : Option (List Nat)) (key : List Nat),
      2 ≤ data.length → kl (joinDots name) = some key →
      (now - (tsig.timeSigned : Int)).natAbs > tsig.fudge →
      validate kl now hmac data name tsig am mode rm = .error .TimeMismatch)
    ∧
    (∀ (kl : List Char → Option (List Nat)) (now : Int)
        (hmac : List Char → List Nat → List Nat → List Nat) (data : List Nat)
        (name : DName) (tsig : TsigDataT) (am : Bool) (mode : TsigMode)
        (rm : Option (List Nat)) (key : List Nat),
      2 ≤ data.length → kl (joinDots name) = some key →
      tsig.timeSigned ≤ chronoMaxTimestamp →
      now - (tsig.fudge : Int) ≤ (tsig.timeSigned : Int) →
      (tsig.timeSigned : Int) ≤ now + (tsig.fudge : Int) →
      joinDots tsig.algorithm ≠ "hmac-sha1".data →
      joinDots tsig.algorithm ≠ "hmac-sha224".data →
      joinDots tsig.algorithm ≠ "hmac-sha256".data →
      joinDots tsig.algorithm ≠ "hmac-sha384".data →
      joinDots tsig.algorithm ≠ "hmac-sha512".data →
      ¬(joinDots tsig.algorithm = "hmac-md5.sig-alg.reg.int".data ∧ am = true) →
      validate kl now hmac data name tsig am mode rm = .error .UnknownAlgorithm)
    ∧
    (∀ (kl : List Char → Option (List Nat)) (now : Int)
        (hmac : List Char → List Nat → List Nat → List Nat) (data : List Nat)
        (name : DName) (tsig : TsigDataT) (am : Bool) (mode : TsigMode)
        (rm : Option (List Nat)) (mac : List Nat),
      calculate kl now hmac data name tsig am mode rm = .ok mac →
      tsig.mac ≠ mac →
      validate kl now hmac data name tsig am mode rm = .error .NoAuth) := by
  refine ⟨?_, ?_, ?_, ?_, ?_, ?_⟩
  · intro now hmac qf af isTcp zone packet name tsig slice sendOk e hq hrc htr hval
    simp only [respond]
    rw [if_neg (by simp [hq, hrc]), if_neg (by simp [htr])]
    simp only [tsigPhase, hval]
    simp [freshResponse]
  · intro e name tsig
    cases e <;> exact ⟨_, rfl, rfl, by simp, by simp, by simp, by simp⟩
  · intro kl now hmac data name tsig am mode rm hkl
    have hcalc : calculate kl now hmac data name tsig am mode rm = .error .MissingKey := by
      unfold calculate
      by_cases hd : data.length < 2
      · rw [if_pos hd]
      · rw [if_neg hd]
        simp only [hkl]
    unfold validate
    simp only [hcalc]
  · intro kl now hmac data name tsig am mode rm key hd hkl habs
    have hcalc : calculate kl now hmac data name tsig am mode rm = .error .TimeMismatch := by
      unfold calculate
      rw [if_neg (by omega)]
      simp only [hkl]
      by_cases hc : tsig.timeSigned > chronoMaxTimestamp
      · rw [if_pos hc]
      · rw [if_neg hc, if_pos (by omega)]
    unfold validate
    simp only [hcalc]
  · intro kl now hmac data name tsig am mode rm key hd hkl hcm hlo hhi h1 h2 h3 h4 h5 h6
    have hcalc : calculate kl now hmac data name tsig am mode rm = .error .UnknownAlgorithm := by
      unfold calculate
      rw [if_neg (by omega)]
      simp only [hkl]
      rw [if_neg (by omega), if_neg (by omega)]
      simp only [if_neg h1, if_neg h2, if_neg h3, if_neg h4, if_neg h5, if_neg h6]
    unfold validate
    simp only [hcalc]
  · intro kl now hmac data name tsig am mode rm mac hcalc hne
    unfold validate
    simp only [hcalc]
    rw [if_pos (by simp [constantTimeEq, hne])]

/-- Witness for C4: a packet whose TSIG names a key absent from the zone's
(empty) key table is answered `NotAuth` with a `BadKey` replacement record,
and the classification facts at concrete inputs. -/
theorem C4_tsig_failure_handling_witness :
    respond 0 zeroHmac noneQueryFn nilAxfrFn false defaultZone c4Packet
        (some (c4KeyName, c4Tsig, headerToBytes c4Header)) true =
      some ([setRcode { freshResponse c4Packet with
        additional_records := [TsigError.toRecord .MissingKey c4KeyName c4Tsig] }
        ResponseCodeT.NotAuth], none, none) ∧
    validate (fun _ => some [7]) 50 zeroHmac [0, 0] c4KeyName c4Tsig true
      TsigMode.Normal none = .error .TimeMismatch := by
  constructor
  · exact C4_tsig_failure_handling.1 0 zeroHmac noneQueryFn nilAxfrFn false defaultZone
      c4Packet c4KeyName c4Tsig (headerToBytes c4Header) true .MissingKey rfl rfl rfl rfl
  · exact C4_tsig_failure_handling.2.2.2.1 (fun _ => some [7]) 50 zeroHmac [0, 0]
      c4KeyName c4Tsig true TsigMode.Normal none [7] (by decide) rfl (by decide)

/-- C5 counterexample: a well-formed AXFR query over UDP that carries a TSIG
record failing validation (wrong MAC) is answered `NotAuth` by the TSIG phase,
not `Refused`: the claimed rcode does not hold for every AXFR that arrives
over UDP or without a successfully validated TSIG. -/
theorem C5_axfr_refusal_counterexample :
    axfrName c5Packet = some nCom ∧
    respond 0 zeroHmac noneQueryFn nilAxfrFn false c5Zone c5Packet
        (some ([['k']], c5Tsig, headerToBytes c5Header)) true =
      some ([setRcode { freshResponse c5Packet with
        additional_records := [TsigError.toRecord .NoAuth [['k']] c5Tsig] }
        ResponseCodeT.NotAuth], none, none) ∧
    ResponseCodeT.NotAuth ≠ ResponseCodeT.Refused :=
  ⟨rfl, rfl, by decide⟩

/-- C5 (amended): for every well-formed AXFR query (exactly one question of
type AXFR and class IN, empty answer and authority sections) that passes the
front gate (query-shaped header, not truncated) and whose TSIG phase succeeds
— it carries either no TSIG record at all, or one that validates — if the
request arrived over UDP or carries no TSIG, the response has rcode `Refused`
and contains no answer records.  (A failing TSIG instead yields `NotAuth`,
settled by the counterexample.) -/
theorem C5_axfr_refusal_amended
    (now : Int) (hmac : List Char → List Nat → List Nat → List Nat)
    (qf : ZoneT → PacketT → PacketT → Option PacketT)
    (af : ZoneT → DName → PacketT → List PacketT)
    (isTcp : Bool) (zone : ZoneT) (packet : PacketT)
    (tsigv : Option (DName × TsigDataT × List Nat)) (sendOk : Bool) (axname : DName)
    (hq : packet.header.queryResponse = QueryResponseT.Query)
    (hrc : packet.header.responseCode = ResponseCodeT.NoError)
    (htr : packet.header.isTruncated = false)
    (hop : packet.header.opcode = OpcodeT.Query)
    (hax : axfrName packet = some axname)
    (hts : tsigv = none ∨ ∃ name tsig slice mac, tsigv = some (name, tsig, slice) ∧
      validate (lookupKey zone.tsigKeys) now hmac
        (headerToBytes { packet.header with
          additionalRecordCount := packet.header.additionalRecordCount - 1 } ++
          slice.drop 12)
        name tsig zone.allowMd5Tsig TsigMode.Normal none = .ok mac)
    (hudp : isTcp = false ∨ tsigv = none) :
    ∃ ti, respond now hmac qf af isTcp zone packet tsigv sendOk =
        some ([setRcode (freshResponse packet) ResponseCodeT.Refused], ti, none) ∧
      (setRcode (freshResponse packet) ResponseCodeT.Refused).answers = [] := by
  rcases hts with h | ⟨name, tsig, slice, mac, heq, hval⟩
  · subst h
    refine ⟨none, ?_, rfl⟩
    simp only [respond]
    rw [if_neg (by simp [hq, hrc]), if_neg (by simp [htr])]
    simp only [tsigPhase, hop, hax]
    simp
  · subst heq
    have hf : isTcp = false := by
      rcases hudp with h | h
      · exact h
      · exact Option.noConfusion h
    refine ⟨some { name := name, request_mac := mac, algorithm := tsig.algorithm },
      ?_, rfl⟩
    simp only [respond]
    rw [if_neg (by simp [hq, hrc]), if_neg (by simp [htr])]
    simp only [tsigPhase, hval]
    simp only [hop, hax]
    rw [if_pos (Or.inr hf)]

/-- Witness for the amended C5 at a concrete input: an AXFR query with no
TSIG over UDP is refused with an empty answer section. -/
theorem C5_axfr_refusal_amended_witness :
    ∃ ti, respond 0 zeroHmac noneQueryFn nilAxfrFn false c5Zone c5Packet2 none true =
        some ([setRcode (freshResponse c5Packet2) ResponseCodeT.Refused], ti, none) ∧
      (setRcode (freshResponse c5Packet2) ResponseCodeT.Refused).answers = [] :=
  C5_axfr_refusal_amended 0 zeroHmac noneQueryFn nilAxfrFn false c5Zone c5Packet2
    none true nCom rfl rfl rfl rfl rfl (Or.inl rfl) (Or.inl rfl)

theorem checkPrereqs_append_nameFound (zc : ClassT) (zr : List Record) :
    ∀ (pre : List Record) (acc : List (TypeT × DName × TypeData)) (p : Record)
      (post : List Record),
      checkPrereqs zc zr pre = .ok acc →
      p.class_ = ClassT.NONE → p.type_ = TypeT.ALL →
      (zr.any fun r => beqName r.name p.name) = true →
      checkPrereqs zc zr (pre ++ p :: post) = .error .NameFound := by
  intro pre
  induction pre with
  | nil =>
    intro acc p post hok hc ht hany
    simp only [List.nil_append, checkPrereqs]
    rw [if_neg (by simp [hc]), if_neg (by simp [hc]), if_pos ⟨hc, ht⟩, if_pos hany]
  | cons q qs ih =>
    intro acc p post hok hc ht hany
    simp only [List.cons_append] at *
    rw [checkPrereqs] at hok ⊢
    by_cases h1 : q.class_ = ClassT.ALL ∧ q.type_ = TypeT.ALL
    · rw [if_pos h1] at hok ⊢
      by_cases h1a : (!zr.any fun r => beqName r.name q.name) = true
      · rw [if_pos h1a] at hok; simp at hok
      · rw [if_neg h1a] at hok ⊢
        by_cases h1b : q.ttl ≠ 0 ∨ ¬beqData q.data (TypeData.Other q.type_ [])
        · rw [if_pos h1b] at hok; simp at hok
        · rw [if_neg h1b] at hok ⊢
          exact ih acc p post hok hc ht hany
    · rw [if_neg h1] at hok ⊢
      by_cases h2 : q.class_ = ClassT.ALL
      · rw [if_pos h2] at hok ⊢
        by_cases h2a :
            (!zr.any fun r => beqName r.name q.name && decide (r.type_ = q.type_)) = true
        · rw [if_pos h2a] at hok; simp at hok
        · rw [if_neg h2a] at hok ⊢
          by_cases h2b : q.ttl ≠ 0 ∨ ¬beqData q.data (TypeData.Other q.type_ [])
          · rw [if_pos h2b] at hok; simp at hok
          · rw [if_neg h2b] at hok ⊢
            exact ih acc p post hok hc ht hany
      · rw [if_neg h2] at hok ⊢
        by_cases h3 : q.class_ = ClassT.NONE ∧ q.type_ = TypeT.ALL
        · rw [if_pos h3] at hok ⊢
          by_cases h3a : (zr.any fun r => beqName r.name q.name) = true
          · rw [if_pos h3a] at hok; simp at hok
          · rw [if_neg h3a] at hok ⊢
            by_cases h3b : q.ttl ≠ 0 ∨ ¬beqData q.data (TypeData.Other q.type_ [])
            · rw [if_pos h3b] at hok; simp at hok
            · rw [if_neg h3b] at hok ⊢
              exact ih acc p post hok hc ht hany
        · rw [if_neg h3] at hok ⊢
          by_cases h4 : q.class_ = ClassT.NONE
          · rw [if_pos h4] at hok ⊢
            by_cases h4a :
                (zr.any fun r => beqName r.name q.name && decide (r.type_ = q.type_)) = true
            · rw [if_pos h4a] at hok; simp at hok
            · rw [if_neg h4a] at hok ⊢
              by_cases h4b : q.ttl ≠ 0 ∨ ¬beqData q.data (TypeData.Other q.type_ [])
              · rw [if_pos h4b] at hok; simp at hok
              · rw [if_neg h4b] at hok ⊢
                exact ih acc p post hok hc ht hany
          · rw [if_neg h4] at hok ⊢
            by_cases h5 : q.class_ = zc
            · rw [if_pos h5] at hok ⊢
              by_cases h5a : q.ttl ≠ 0
              · rw [if_pos h5a] at hok; simp at hok
              · rw [if_neg h5a] at hok ⊢
                cases hrec : checkPrereqs zc zr qs with
                | error e => rw [hrec] at hok; simp at hok
                | ok rest =>
                  simp only [ih rest p post hrec hc ht hany]
            · rw [if_neg h5] at hok; simp at hok

/-- C6 counterexample: an UPDATE packet that contains a class-NONE/type-ANY
prerequisite whose owner name is in use in the target zone, but whose
prerequisite section also holds an earlier failing prerequisite, is answered
`NameError` — not `YxDomain`: the claimed rcode does not hold for every
UPDATE packet containing such a prerequisite. -/
theorem C6_prereq_yxdomain_counterexample :
    (c6PrereqB.class_ = ClassT.NONE ∧ c6PrereqB.type_ = TypeT.ALL ∧
      c6PrereqB ∈ c6Packet.answers ∧
      ((selectZone c6Zone c6Q.name).2.records.any
        fun r => beqName r.name c6PrereqB.name) = true) ∧
    respond_update c6Zone c6Packet (freshResponse c6Packet) =
      .error (setRcode (freshResponse c6Packet) ResponseCodeT.NameError) ∧
    ResponseCodeT.NameError ≠ ResponseCodeT.YxDomain :=
  ⟨⟨rfl, rfl, by decide, rfl⟩, rfl, by decide⟩

/-- C6 (amended): for every UPDATE packet with a well-formed zone section
(one question of type SOA in the zone's class) whose prerequisite section
splits as `pre ++ p :: post` where all prerequisites in `pre` pass, and `p`
has class NONE and type ANY with an owner name in use in the target zone, the
pipeline stops at `p`: `do_respond_update` returns the `NameFound` error,
`respond_update` answers with rcode `YxDomain`, and (through `respond`, for a
request whose TSIG validates) no `ZoneUpdate` is delivered to the provider.
Packets whose zone section is malformed, or with an earlier failing
prerequisite, answer with a different rcode (see the counterexample). -/
theorem C6_prereq_yxdomain_amended
    (now : Int) (hmac : List Char → List Nat → List Nat → List Nat)
    (qf : ZoneT → PacketT → PacketT → Option PacketT)
    (af : ZoneT → DName → PacketT → List PacketT)
    (isTcp : Bool) (zone : ZoneT) (packet : PacketT)
    (name : DName) (tsig : TsigDataT) (slice mac : List Nat) (sendOk : Bool)
    (q : Question) (pre : List Record) (p : Record) (post : List Record)
    (acc : List (TypeT × DName × TypeData))
    (hq : packet.header.queryResponse = QueryResponseT.Query)
    (hrc : packet.header.responseCode = ResponseCodeT.NoError)
    (htr : packet.header.isTruncated = false)
    (hop : packet.header.opcode = OpcodeT.Update)
    (hval : validate (lookupKey zone.tsigKeys) now hmac
      (headerToBytes { packet.header with
        additionalRecordCount := packet.header.additionalRecordCount - 1 } ++
        slice.drop 12)
      name tsig zone.allowMd5Tsig TsigMode.Normal none = .ok mac)
    (hqs : packet.questions = [q])
    (hqt : q.type_ = TypeT.SOA)
    (hqc : q.class_ = zone.class_)
    (hans : packet.answers = pre ++ p :: post)
    (hpre : checkPrereqs (selectZone zone q.name).2.class_
      (selectZone zone q.name).2.records pre = .ok acc)
    (hpc : p.class_ = ClassT.NONE) (hpt : p.type_ = TypeT.ALL)
    (hinuse : ((selectZone zone q.name).2.records.any
      fun r => beqName r.name p.name) = true) :
    do_respond_update zone packet = .error .NameFound ∧
    respond_update zone packet (freshResponse packet) =
      .error (setRcode (freshResponse packet) ResponseCodeT.YxDomain) ∧
    respond now hmac qf af isTcp zone packet (some (name, tsig, slice)) sendOk =
      some ([setRcode (freshResponse packet) ResponseCodeT.YxDomain],
        some { name := name, request_mac := mac, algorithm := tsig.algorithm },
        none) := by
  have hdo : do_respond_update zone packet = .error .NameFound := by
    simp only [do_respond_update, hqs]
    rw [if_neg (by simp [hqt, hqc]), hans]
    simp only [checkPrereqs_append_nameFound (selectZone zone q.name).2.class_
      (selectZone zone q.name).2.records pre acc p post hpre hpc hpt hinuse]
  have hru : respond_update zone packet (freshResponse packet) =
      .error (setRcode (freshResponse packet) ResponseCodeT.YxDomain) := by
    unfold respond_update
    simp only [hdo]
  refine ⟨hdo, hru, ?_⟩
  simp only [respond]
  rw [if_neg (by simp [hq, hrc]), if_neg (by simp [htr])]
  simp only [tsigPhase, hval]
  simp only [hop]
  rw [if_neg (by simp)]
  simp only [hru]

/-- Witness for the amended C6 at a concrete input: a zone holding a record
at name `a`, an UPDATE with a validating TSIG whose only prerequisite is
class NONE / type ANY at name `a`, is answered `YxDomain` with no delivered
update. -/
theorem C6_prereq_yxdomain_amended_witness :
    do_respond_update c6Zone c6WPacket = .error .NameFound ∧
    respond_update c6Zone c6WPacket (freshResponse c6WPacket) =
      .error (setRcode (freshResponse c6WPacket) ResponseCodeT.YxDomain) ∧
    respond 0 zeroHmac noneQueryFn nilAxfrFn true c6Zone c6WPacket
        (some ([['k']], c6Tsig, headerToBytes c6WHeader)) true =
      some ([setRcode (freshResponse c6WPacket) ResponseCodeT.YxDomain],
        some { name := [['k']], request_mac := [0], algorithm := c6Tsig.algorithm },
        none) :=
  C6_prereq_yxdomain_amended 0 zeroHmac noneQueryFn nilAxfrFn true c6Zone c6WPacket
    [['k']] c6Tsig (headerToBytes c6WHeader) [0] true c6Q [] c6PrereqB [] []
    rfl rfl rfl rfl rfl rfl rfl rfl rfl rfl rfl rfl rfl

end Adns
